import Mathlib

/-!
Verification of the Asana seed-data generator's design specification.

The Python sources are shallowly embedded below:

* Python `datetime` instants are rationals (seconds relative to
  2026-01-06 00:00:00, which is a Tuesday); `timedelta` arithmetic is plain
  rational arithmetic.  `strftime("%Y-%m-%d %H:%M:%S")` drops sub-second
  precision, so a formatted timestamp is modelled by the floor of the instant
  in whole seconds (an `Int`), and a formatted `"%Y-%m-%d"` date by the floor
  in whole days.  Both renderings are order isomorphisms on what they encode,
  so ordering claims transfer exactly.
* The process-wide random stream seeded by `random.seed(SEED)` is modelled by
  oracle functions: every `random.*` primitive consumes the next oracle value
  and interprets it (clamped into the set of values the primitive can actually
  return).  `uuid.uuid4()` does not read the seeded stream in the source; it
  is modelled by a separate entropy stream `uuid` on the oracle.
* Python functions that can raise run in an `Except`-style monad `GenM`;
  `ZeroDivisionError`, `IndexError`, `ValueError`, `sqlite3.IntegrityError`
  are constructors of `PyErr`.
* Python `str` is Lean `String`; `str.lower` maps `Char.toLower` over the
  characters, `str(n)` for a natural `n` is the decimal rendering `pyStr`,
  `in`/`not in` on a set of strings is list membership (sets are only ever
  grown, under a not-already-present guard, so a list models them exactly),
  and `startswith` is the list-prefix test.
* Volume configuration values (`VOLUMES`) are parameters of the generator
  functions, matching the spec's contract that all volume counts are injected
  configuration; the distribution tables are embedded verbatim from
  `config.py`.
* The LLM/template content generators (`get_random_task_name`,
  `generate_task_description`) only produce free-text `name`/`description`
  payloads; per the spec they are an external text collaborator, and they are
  modelled as reads from the oracle's `str` stream.
-/

namespace Asana

/-! ## Decimal rendering of naturals: model of Python `str(n)` -/

/-- Decimal digits, least significant first; fuel-driven so that the kernel
can evaluate it (the fuel `n` itself always suffices). -/
def digitsRevF : Nat → Nat → List Nat
  | 0, n => [n % 10]
  | fuel + 1, n => if n < 10 then [n] else n % 10 :: digitsRevF fuel (n / 10)

/-- Decimal digits of `n`, least significant first, as numbers `< 10`. -/
def digitsRev (n : Nat) : List Nat := digitsRevF n n

/-- Value of a least-significant-first digit list. -/
def undigits : List Nat → Nat
  | [] => 0
  | d :: ds => d + 10 * undigits ds

theorem undigits_digitsRevF :
    ∀ fuel n, n ≤ fuel + 9 → undigits (digitsRevF fuel n) = n := by
  intro fuel
  induction fuel with
  | zero =>
    intro n hn
    simp only [digitsRevF, undigits]
    omega
  | succ fuel ih =>
    intro n hn
    simp only [digitsRevF]
    by_cases h : n < 10
    · simp [h, undigits]
    · simp only [h, if_false, undigits]
      rw [ih (n / 10) (by omega)]
      omega

theorem undigits_digitsRev (n : Nat) : undigits (digitsRev n) = n :=
  undigits_digitsRevF n n (by omega)

theorem digitsRev_injective : Function.Injective digitsRev := by
  intro a b h
  have := undigits_digitsRev a
  rw [h, undigits_digitsRev] at this
  omega

/-- Digit as a character, `0 ↦ '0'`, ..., `9 ↦ '9'`. -/
def digitCh (d : Nat) : Char := Char.ofNat (48 + d % 10)

theorem digitCh_injOn {d e : Nat} (hd : d < 10) (he : e < 10)
    (h : digitCh d = digitCh e) : d = e := by
  interval_cases d <;> interval_cases e <;> simp_all [digitCh]

theorem digitCh_isDigit {d : Nat} (hd : d < 10) : (digitCh d).isDigit = true := by
  interval_cases d <;> decide

theorem digitsRevF_lt_ten : ∀ fuel n, ∀ d ∈ digitsRevF fuel n, d < 10 := by
  intro fuel
  induction fuel with
  | zero =>
    intro n d hd
    simp only [digitsRevF, List.mem_singleton] at hd
    omega
  | succ fuel ih =>
    intro n d hd
    simp only [digitsRevF] at hd
    by_cases h : n < 10
    · simp only [h, if_true, List.mem_singleton] at hd
      omega
    · simp only [h, if_false, List.mem_cons] at hd
      rcases hd with rfl | hd
      · omega
      · exact ih (n / 10) d hd

theorem digitsRev_lt_ten (n : Nat) : ∀ d ∈ digitsRev n, d < 10 :=
  digitsRevF_lt_ten n n

theorem digitsRev_ne_nil (n : Nat) : digitsRev n ≠ [] := by
  unfold digitsRev
  cases n with
  | zero => simp [digitsRevF]
  | succ m =>
    simp only [digitsRevF]
    by_cases h : m + 1 < 10 <;> simp [h]

/-- Model of Python `str(n)` for a natural number: most-significant digit
first. -/
def pyStr (n : Nat) : List Char := (digitsRev n).reverse.map digitCh

theorem pyStr_ne_nil (n : Nat) : pyStr n ≠ [] := by
  simp [pyStr, digitsRev_ne_nil n]

theorem pyStr_all_digit (n : Nat) : ∀ c ∈ pyStr n, c.isDigit = true := by
  intro c hc
  simp only [pyStr, List.mem_map, List.mem_reverse] at hc
  obtain ⟨d, hd, rfl⟩ := hc
  exact digitCh_isDigit (digitsRev_lt_ten n d hd)

theorem map_digitCh_injOn :
    ∀ {l m : List Nat}, (∀ d ∈ l, d < 10) → (∀ d ∈ m, d < 10) →
      l.map digitCh = m.map digitCh → l = m := by
  intro l
  induction l with
  | nil =>
    intro m _ _ h
    cases m with
    | nil => rfl
    | cons y ys => simp at h
  | cons x xs ih =>
    intro m hl hm h
    cases m with
    | nil => simp at h
    | cons y ys =>
      simp only [List.map_cons, List.cons.injEq] at h
      have hx := digitCh_injOn (hl x (List.mem_cons_self x xs))
        (hm y (List.mem_cons_self y ys)) h.1
      have := ih (fun d hd => hl d (List.mem_cons_of_mem _ hd))
        (fun d hd => hm d (List.mem_cons_of_mem _ hd)) h.2
      rw [hx, this]

theorem pyStr_injective : Function.Injective pyStr := by
  intro a b h
  apply digitsRev_injective
  have h2 := map_digitCh_injOn
    (fun d hd => digitsRev_lt_ten a d (List.mem_reverse.mp hd))
    (fun d hd => digitsRev_lt_ten b d (List.mem_reverse.mp hd)) h
  simpa using h2

/-! ## Character-class facts -/

theorem not_isAlpha_of_isDigit {c : Char} (h : c.isDigit = true) :
    c.isAlpha = false := by
  by_contra hne
  have h2 : c.isAlpha = true := by
    cases hh : c.isAlpha
    · exact absurd hh hne
    · rfl
  simp only [Char.isDigit, Bool.and_eq_true, decide_eq_true_eq] at h
  simp only [Char.isAlpha, Char.isUpper, Char.isLower, Bool.or_eq_true,
    Bool.and_eq_true, decide_eq_true_eq] at h2
  have hb : c.val.toNat ≤ 57 := h.2
  rcases h2 with ⟨h3, _⟩ | ⟨h3, _⟩
  · have : (65 : Nat) ≤ c.val.toNat := h3
    omega
  · have : (97 : Nat) ≤ c.val.toNat := h3
    omega

theorem alpha_ne_digit {c d : Char} (hc : c.isAlpha = true) (hd : d.isDigit = true) :
    c ≠ d := by
  intro h
  rw [h] at hc
  rw [not_isAlpha_of_isDigit hd] at hc
  exact Bool.false_ne_true hc

theorem alpha_ne_at {c : Char} (hc : c.isAlpha = true) : c ≠ '@' := by
  intro h
  rw [h] at hc
  exact absurd hc (by decide)

theorem alpha_ne_dot {c : Char} (hc : c.isAlpha = true) : c ≠ '.' := by
  intro h
  rw [h] at hc
  exact absurd hc (by decide)

theorem digit_ne_at {c : Char} (hc : c.isDigit = true) : c ≠ '@' := by
  intro h
  rw [h] at hc
  exact absurd hc (by decide)

theorem digit_ne_dot {c : Char} (hc : c.isDigit = true) : c ≠ '.' := by
  intro h
  rw [h] at hc
  exact absurd hc (by decide)

/-! ## Unique splitting lemmas for email strings -/

/-- Splitting a list at a separator character that occurs in neither prefix is
unambiguous. -/
theorem split_at_sep_unique {sep : Char} :
    ∀ {a c b d : List Char}, a ++ sep :: b = c ++ sep :: d →
      sep ∉ a → sep ∉ c → a = c ∧ b = d := by
  intro a
  induction a with
  | nil =>
    intro c b d h _ hc
    cases c with
    | nil => simpa using h
    | cons x xs =>
      simp only [List.nil_append, List.cons_append, List.cons.injEq] at h
      exact absurd (h.1 ▸ List.mem_cons_self x xs) hc
  | cons x xs ih =>
    intro c b d h ha hc
    cases c with
    | nil =>
      simp only [List.cons_append, List.nil_append, List.cons.injEq] at h
      exact absurd (h.1 ▸ List.mem_cons_self x xs) ha
    | cons y ys =>
      simp only [List.cons_append, List.cons.injEq] at h
      obtain ⟨rfl, h2⟩ := h
      have := ih h2 (fun hs => ha (List.mem_cons_of_mem _ hs))
        (fun hs => hc (List.mem_cons_of_mem _ hs))
      exact ⟨by rw [this.1], this.2⟩

/-- Splitting a list into an all-alphabetic part followed by an all-digit part
is unambiguous. -/
theorem alpha_digit_split_unique :
    ∀ {a c b d : List Char}, a ++ b = c ++ d →
      (∀ x ∈ a, x.isAlpha = true) → (∀ x ∈ c, x.isAlpha = true) →
      (∀ x ∈ b, x.isDigit = true) → (∀ x ∈ d, x.isDigit = true) →
      a = c ∧ b = d := by
  intro a
  induction a with
  | nil =>
    intro c b d h _ hc hb _
    cases c with
    | nil => simpa using h
    | cons y ys =>
      exfalso
      simp only [List.nil_append, List.cons_append] at h
      have hyb : y ∈ b := h ▸ List.mem_cons_self y (ys ++ d)
      exact absurd rfl (alpha_ne_digit (hc y (List.mem_cons_self y ys)) (hb y hyb))
  | cons x xs ih =>
    intro c b d h ha hc hb hd
    cases c with
    | nil =>
      exfalso
      simp only [List.cons_append, List.nil_append] at h
      have hxd : x ∈ d := h ▸ List.mem_cons_self x (xs ++ b)
      exact absurd rfl (alpha_ne_digit (ha x (List.mem_cons_self x xs)) (hd x hxd))
    | cons y ys =>
      simp only [List.cons_append, List.cons.injEq] at h
      obtain ⟨rfl, h2⟩ := h
      have := ih h2 (fun z hz => ha z (List.mem_cons_of_mem _ hz))
        (fun z hz => hc z (List.mem_cons_of_mem _ hz)) hb hd
      exact ⟨by rw [this.1], this.2⟩

/-! ## Random oracle and generation monad -/

/-- Entropy sources of one process run.  `nat`, `q` and `str` model the single
stream seeded by `random.seed(SEED)` in `utils/base.py` (a function of the
seed); `uuid` models the operating-system entropy consumed by `uuid.uuid4()`
in `generate_gid`, which `random.seed` does not influence. -/
structure Oracle where
  nat : Nat → Nat
  q : Nat → ℚ
  str : Nat → String
  uuid : Nat → Nat

/-- Python exceptions that the embedded code can raise. -/
inductive PyErr where
  | zeroDivision
  | indexError
  | valueError
  | integrityError
deriving DecidableEq, Repr

/-- Generation monad: an oracle, a draw counter, and Python exceptions. -/
def GenM (α : Type) : Type := Oracle → Nat → Except PyErr (α × Nat)

instance : Monad GenM where
  pure a := fun _ n => .ok (a, n)
  bind m f := fun o n =>
    match m o n with
    | .ok (a, n') => f a o n'
    | .error e => .error e

theorem GenM.bind_def {α β : Type} (m : GenM α) (f : α → GenM β) (o : Oracle) (n : Nat) :
    (m >>= f) o n = match m o n with
      | .ok (a, n') => f a o n'
      | .error e => .error e := rfl

theorem GenM.pure_def {α : Type} (a : α) (o : Oracle) (n : Nat) :
    (pure a : GenM α) o n = .ok (a, n) := rfl

def GenM.throw {α : Type} (e : PyErr) : GenM α := fun _ _ => .error e

/-- Clamp an oracle rational into `[0, 1)`, the range of `random.random()`. -/
def unitClamp (x : ℚ) : ℚ := if 0 ≤ x ∧ x < 1 then x else 0

theorem unitClamp_nonneg (x : ℚ) : 0 ≤ unitClamp x := by
  unfold unitClamp
  split
  · rename_i h
    exact h.1
  · exact le_refl 0

theorem unitClamp_lt_one (x : ℚ) : unitClamp x < 1 := by
  unfold unitClamp
  split
  · rename_i h
    exact h.2
  · exact one_pos

/-- Clamp an oracle rational into `(0, ∞)`, the range of
`random.lognormvariate`. -/
def posClamp (x : ℚ) : ℚ := if 0 < x then x else 1

theorem posClamp_pos (x : ℚ) : 0 < posClamp x := by
  unfold posClamp
  split
  · assumption
  · exact one_pos

/-- Model of `random.random()`. -/
def pyRandom : GenM ℚ := fun o n => .ok (unitClamp (o.q n), n + 1)

/-- Model of `random.uniform(a, b)`. -/
def pyUniform (a b : ℚ) : GenM ℚ := fun o n =>
  .ok (a + unitClamp (o.q n) * (b - a), n + 1)

/-- Model of `random.lognormvariate(mu, sigma)`: an arbitrary positive draw.
The two arguments only shape the distribution, which the embedding abstracts
over; they are kept so call sites mirror the source. -/
def pyLognormvariate (_mu _sigma : ℚ) : GenM ℚ := fun o n =>
  .ok (posClamp (o.q n), n + 1)

/-- Model of `random.randint(a, b)` (inclusive bounds, raises on an empty
range). -/
def pyRandint (a b : Int) : GenM Int := fun o n =>
  if b < a then .error .valueError
  else .ok (a + (o.nat n % (b - a + 1).toNat : Nat), n + 1)

theorem pyRandint_bounds {a b : Int} {o : Oracle} {n : Nat} {r : Int} {n' : Nat}
    (h : pyRandint a b o n = .ok (r, n')) : a ≤ r ∧ r ≤ b ∧ n' = n + 1 := by
  unfold pyRandint at h
  split at h
  · exact absurd h (by simp)
  · rename_i hab
    simp only [Except.ok.injEq, Prod.mk.injEq] at h
    obtain ⟨rfl, rfl⟩ := h
    have hlt : (o.nat n % (b - a + 1).toNat : Nat) < (b - a + 1).toNat :=
      Nat.mod_lt _ (by omega)
    omega

/-- Model of `random.choice(xs)`: an arbitrary element, `IndexError` when
empty. -/
def pyChoice {α : Type} (xs : List α) : GenM α := fun o n =>
  if h : 0 < xs.length then
    .ok (xs.get ⟨o.nat n % xs.length, Nat.mod_lt _ h⟩, n + 1)
  else .error .indexError

theorem pyChoice_mem {α : Type} {xs : List α} {o : Oracle} {n : Nat} {r : α} {n' : Nat}
    (h : pyChoice xs o n = .ok (r, n')) : r ∈ xs ∧ n' = n + 1 := by
  unfold pyChoice at h
  split at h
  · simp only [Except.ok.injEq, Prod.mk.injEq] at h
    obtain ⟨rfl, rfl⟩ := h
    exact ⟨List.get_mem _ _ _, rfl⟩
  · exact absurd h (by simp)

/-- Model of `random.random() < p` via `probability_check` in
`utils/base.py`. -/
def probability_check (p : ℚ) : GenM Bool := fun o n =>
  .ok (decide (unitClamp (o.q n) < p), n + 1)

/-- One step of `random.sample`: pick a position, return that element and the
remainder. -/
def pySampleAux {α : Type} : Nat → List α → GenM (List α)
  | 0, _ => pure []
  | k + 1, xs => fun o n =>
    if h : 0 < xs.length then
      let i : Fin xs.length := ⟨o.nat n % xs.length, Nat.mod_lt _ h⟩
      match pySampleAux k (xs.eraseIdx i.val) o (n + 1) with
      | .ok (l, n') => .ok (xs.get i :: l, n')
      | .error e => .error e
    else .error .valueError

/-- Model of `random.sample(xs, k)`: `k` elements drawn without replacement
(`ValueError` when `k` exceeds the population size). -/
def pySample {α : Type} (xs : List α) (k : Nat) : GenM (List α) :=
  if k ≤ xs.length then pySampleAux k xs else GenM.throw .valueError

theorem pySampleAux_sub {α : Type} :
    ∀ (k : Nat) (xs : List α) (o : Oracle) (n : Nat) (l : List α) (n' : Nat),
      pySampleAux k xs o n = .ok (l, n') → ∀ x ∈ l, x ∈ xs := by
  intro k
  induction k with
  | zero =>
    intro xs o n l n' h x hx
    simp only [pySampleAux, GenM.pure_def, Except.ok.injEq, Prod.mk.injEq] at h
    rw [← h.1] at hx
    simp at hx
  | succ k ih =>
    intro xs o n l n' h x hx
    simp only [pySampleAux] at h
    split at h
    · rename_i hlen
      split at h
      · rename_i l0 n0 heq
        simp only [Except.ok.injEq, Prod.mk.injEq] at h
        obtain ⟨hl, _⟩ := h
        rw [← hl] at hx
        rcases List.mem_cons.mp hx with rfl | hx'
        · exact List.get_mem _ _ _
        · exact (List.eraseIdx_sublist xs _).subset (ih _ _ _ _ _ heq x hx')
      · exact absurd h (by simp)
    · exact absurd h (by simp)

theorem pySample_sub {α : Type} {xs : List α} {k : Nat} {o : Oracle} {n : Nat}
    {l : List α} {n' : Nat} (h : pySample xs k o n = .ok (l, n')) :
    ∀ x ∈ l, x ∈ xs := by
  unfold pySample at h
  split at h
  · exact pySampleAux_sub k xs o n l n' h
  · exact absurd h (by simp [GenM.throw])

/-! ## Time model

Instants are rational seconds relative to 2026-01-06 00:00:00 (a Tuesday);
`NOW = datetime(2026, 1, 6, 22, 0, 0)` from `utils/config.py` is 22 hours past
that origin. -/

/-- A Python `datetime` instant, in seconds relative to 2026-01-06 00:00:00. -/
abbrev DT := ℚ

/-- `NOW = datetime(2026, 1, 6, 22, 0, 0)` from `utils/config.py`. -/
def NOW : DT := 22 * 3600

/-- `HISTORY_START = NOW - timedelta(days=180)`. -/
def HISTORY_START : DT := NOW - 180 * 86400

/-- `HISTORY_END = NOW`. -/
def HISTORY_END : DT := NOW

/-- Whole days since the origin (floor, as Python dates do). -/
def dayIndex (t : DT) : Int := Int.fdiv ⌊t⌋ 86400

/-- Python `datetime.weekday()`: Monday = 0 … Sunday = 6.  The origin
2026-01-06 is a Tuesday, hence the offset 1. -/
def pyWeekday (t : DT) : Int := (dayIndex t + 1).emod 7

/-- Python `datetime.hour`. -/
def pyHour (t : DT) : Int := (Int.fdiv ⌊t⌋ 3600).emod 24

/-- Python `dt.replace(hour=0, minute=0, second=0, microsecond=0)`. -/
def floorDay (t : DT) : DT := ((dayIndex t * 86400 : Int) : ℚ)

/-- Python `(delta).days` for a `timedelta` of `t` seconds (floor towards
minus infinity, as `timedelta` normalisation does). -/
def deltaDays (t : DT) : Int := Int.fdiv ⌊t⌋ 86400

/-- Model of `strftime("%Y-%m-%d %H:%M:%S")`: the instant truncated to whole
seconds.  The rendering is an order isomorphism between second-truncated
instants and timestamp strings, so `Int` stands for the string. -/
def format_timestamp (t : DT) : Int := ⌊t⌋

/-- Model of `strftime("%Y-%m-%d")`: the instant truncated to whole days. -/
def format_date : Option DT → Option Int
  | none => none
  | some t => some (dayIndex t)

/-- Model of `datetime.strptime(s, "%Y-%m-%d %H:%M:%S")` on a formatted
timestamp. -/
def parse_timestamp (n : Int) : DT := (n : ℚ)

/-- Model of `datetime.strptime(s, "%Y-%m-%d")` on a formatted date. -/
def parse_date (d : Int) : DT := ((d * 86400 : Int) : ℚ)

/-! ## Model of `math.exp` on floats

`math.exp` only occurs inside `generate_creation_wave`, where its value feeds
a progress fraction that is subsequently clamped into `[0, 1]` and jittered.
It is modelled by a fixed-degree Taylor partial sum — an exact rational
stand-in for the float approximation the source computes; no claim below
depends on its numeric error. -/

/-- Taylor partial sum for the exponential, degree 20. -/
def mexp (x : ℚ) : ℚ :=
  (List.range 21).foldl (fun acc k => acc + x ^ k / (Nat.factorial k : ℚ)) 0

/-- Model of the float constant `math.e ** 2`. -/
def mexpESq : ℚ := mexp 1 * mexp 1

/-! ## Configuration constants from `utils/config.py`

Volume counts (`VOLUMES`) are injected as parameters at the generator call
sites; the distribution tables below are the literal values. -/

/-- `DAY_OF_WEEK_WEIGHTS.get(weekday, 1.0)` from `utils/config.py`. -/
def DAY_OF_WEEK_WEIGHTS (d : Int) : ℚ :=
  if d = 0 then 12/10
  else if d = 1 then 13/10
  else if d = 2 then 12/10
  else if d = 3 then 1
  else if d = 4 then 8/10
  else if d = 5 then 3/10
  else if d = 6 then 2/10
  else 1

/-- `COMPLETION_TIME_CONFIG` from `utils/config.py`. -/
def completionLogNormalMean : ℚ := 15/10

def completionLogNormalSigma : ℚ := 8/10

def completionMinDays : ℚ := 1/10

def completionMaxDays : ℚ := 30

/-- `TASK_CONFIG["unassigned_ratio"]`. -/
def taskUnassignedRatio : ℚ := 15/100

/-- `TASK_CONFIG["due_date_distribution"]`, in dict insertion order. -/
def taskDueDateDistribution : List (String × ℚ) :=
  [("within_week", 25/100), ("within_month", 40/100),
   ("one_to_three_months", 20/100), ("no_due_date", 10/100),
   ("overdue", 5/100)]

/-- `TASK_CONFIG["has_start_date_ratio"]`. -/
def taskHasStartDateRatio : ℚ := 35/100

/-- `TASK_CONFIG["completion_rates"]`. -/
def taskCompletionRates : List (String × (ℚ × ℚ)) :=
  [("sprint", (70/100, 85/100)), ("kanban", (55/100, 70/100)),
   ("launch", (60/100, 75/100)), ("ongoing", (40/100, 55/100)),
   ("bugs", (65/100, 80/100))]

/-- `TASK_CONFIG["milestone_ratio"]`. -/
def taskMilestoneRatio : ℚ := 5/100

/-- `TASK_CONFIG["description_distribution"]`, in dict insertion order. -/
def taskDescriptionDistribution : List (String × ℚ) :=
  [("empty", 20/100), ("short", 50/100), ("detailed", 30/100)]

/-- `USER_STATUS_WEIGHTS`, in dict insertion order. -/
def USER_STATUS_WEIGHTS : List (String × ℚ) :=
  [("active", 90/100), ("away", 5/100), ("dnd", 3/100), ("deactivated", 2/100)]

/-- `TEAM_MEMBERSHIP_DISTRIBUTION["guest_ratio"]`. -/
def guestRatio : ℚ := 5/100

/-- `DEPENDENCY_CONFIG["tasks_with_dependencies_ratio"]`. -/
def depTasksWithDependenciesRatio : ℚ := 8/100

/-- `DEPENDENCY_CONFIG["type_weights"]`, in dict insertion order. -/
def depTypeWeights : List (String × ℚ) :=
  [("finish_to_start", 80/100), ("start_to_start", 12/100),
   ("finish_to_finish", 8/100)]

/-! ## `utils/base.py` -/

/-- `generate_gid`: `str(uuid.uuid4().int)[:16].zfill(16)`.  The 128-bit
`uuid4` value comes from the oracle's OS-entropy stream, not the seeded
stream. -/
def generate_gid : GenM String := fun o n =>
  .ok (String.mk (padZfill ((pyStr (o.uuid n)).take 16)), n + 1)
where
  /-- `str.zfill(16)`: left-pad with `'0'` to length 16. -/
  padZfill (l : List Char) : List Char :=
    List.replicate (16 - l.length) '0' ++ l

/-- Running cumulative sums, as `itertools.accumulate` produces inside
`random.choices`. -/
def cumSums (weights : List ℚ) : List ℚ :=
  (weights.foldl (fun acc w => ((acc.headD 0 + w) :: acc)) []).reverse

theorem cumSums_length (weights : List ℚ) : (cumSums weights).length = weights.length := by
  suffices h : ∀ acc : List ℚ,
      (weights.foldl (fun acc w => ((acc.headD 0 + w) :: acc)) acc).length
        = weights.length + acc.length by
    simpa [cumSums] using h []
  induction weights with
  | nil => intro acc; simp
  | cons w ws ih =>
    intro acc
    simp only [List.foldl_cons, ih]
    simp
    omega

/-- The `while lo < hi` loop of CPython's `bisect_right`, fuel-driven so the
kernel can evaluate it; `hi - lo` steps always suffice. -/
def bisectRightAux (a : List ℚ) (x : ℚ) : Nat → Nat → Nat → Nat
  | 0, lo, _ => lo
  | fuel + 1, lo, hi =>
    if lo < hi then
      let mid := (lo + hi) / 2
      if x < a.getD mid 0 then bisectRightAux a x fuel lo mid
      else bisectRightAux a x fuel (mid + 1) hi
    else lo

/-- `bisect.bisect_right(a, x, lo, hi)` from CPython, used by
`random.choices`. -/
def bisectRight (a : List ℚ) (x : ℚ) (lo hi : Nat) : Nat :=
  bisectRightAux a x (hi - lo) lo hi

theorem bisectRightAux_le (a : List ℚ) (x : ℚ) :
    ∀ fuel lo hi, lo ≤ hi →
      lo ≤ bisectRightAux a x fuel lo hi ∧ bisectRightAux a x fuel lo hi ≤ hi := by
  intro fuel
  induction fuel with
  | zero =>
    intro lo hi hle
    simpa [bisectRightAux] using hle
  | succ fuel ih =>
    intro lo hi hle
    simp only [bisectRightAux]
    split
    · rename_i hlt
      split
      · have := ih lo ((lo + hi) / 2) (by omega)
        omega
      · have := ih ((lo + hi) / 2 + 1) hi (by omega)
        omega
    · omega

theorem bisectRight_le (a : List ℚ) (x : ℚ) :
    ∀ lo hi, lo ≤ hi → lo ≤ bisectRight a x lo hi ∧ bisectRight a x lo hi ≤ hi := by
  intro lo hi hle
  exact bisectRightAux_le a x (hi - lo) lo hi hle

/-- `random.choices(population, weights=w, k=1)[0]` from CPython: length
check, cumulative totals, positivity check, then `bisect`. -/
def pyChoicesW {α : Type} (population : List α) (weights : List ℚ) : GenM α :=
  fun o n =>
  let cum := cumSums weights
  if cum.length ≠ population.length then .error .valueError
  else
    match population with
    | [] => .error .indexError
    | p :: rest =>
      let total := cum.getLastD 0
      if total ≤ 0 then .error .valueError
      else
        let u := unitClamp (o.q n)
        let idx := bisectRight cum (u * total) 0 ((p :: rest).length - 1)
        .ok ((p :: rest).getD idx p, n + 1)

/-- `weighted_choice(options, weights)` from `utils/base.py`: normalise the
weights by their sum (Python raises `ZeroDivisionError` when the sum is zero
and the weight list is non-empty), then draw via `random.choices`. -/
def weighted_choice {α : Type} (options : List α) (weights : List ℚ) : GenM α :=
  fun o n =>
  let total := weights.sum
  if total = 0 ∧ weights ≠ [] then .error .zeroDivision
  else pyChoicesW options (weights.map (fun w => w / total)) o n

/-- `weighted_choice_dict(options_weights)` from `utils/base.py`. -/
def weighted_choice_dict {α : Type} (ow : List (α × ℚ)) : GenM α :=
  weighted_choice (ow.map Prod.fst) (ow.map Prod.snd)

/-- One attempt of the rejection loop inside `random_timestamp`. -/
def random_timestamp_attempt (start finish : DT)
    (business_hours_only weekday_weighted : Bool) : GenM (Option DT) := do
  let u ← pyRandom
  let candidate := start + u * (finish - start)
  if weekday_weighted then
    let day_weight := DAY_OF_WEEK_WEIGHTS (pyWeekday candidate)
    let r ← pyRandom
    if day_weight / (13/10) < r then
      return none
    else if business_hours_only then
      if pyHour candidate < 9 ∨ 18 ≤ pyHour candidate then return none
      else if 5 ≤ pyWeekday candidate then return none
      else return some candidate
    else return some candidate
  else if business_hours_only then
    if pyHour candidate < 9 ∨ 18 ≤ pyHour candidate then return none
    else if 5 ≤ pyWeekday candidate then return none
    else return some candidate
  else return some candidate

/-- The bounded rejection loop of `random_timestamp` (`max_attempts = 100`). -/
def random_timestamp_loop (start finish : DT)
    (business_hours_only weekday_weighted : Bool) : Nat → GenM (Option DT)
  | 0 => pure none
  | k + 1 => do
    let r ← random_timestamp_attempt start finish business_hours_only weekday_weighted
    match r with
    | some t => pure (some t)
    | none => random_timestamp_loop start finish business_hours_only weekday_weighted k

/-- `random_timestamp` from `utils/base.py`: rejection-sample against the
weekday weights (and optional business-hour window) for up to 100 attempts,
then fall back to an unconstrained uniform draw. -/
def random_timestamp (start finish : DT)
    (business_hours_only weekday_weighted : Bool) : GenM DT := do
  let r ← random_timestamp_loop start finish business_hours_only weekday_weighted 100
  match r with
  | some t => pure t
  | none => do
    let u ← pyRandom
    pure (start + u * (finish - start))

/-- `log_normal_days()` from `utils/base.py` with the default config
arguments. -/
def log_normal_days : GenM ℚ := do
  let days ← pyLognormvariate completionLogNormalMean completionLogNormalSigma
  pure (max completionMinDays (min completionMaxDays days))

/-- `calculate_completion_timestamp(created_at, min_days, max_days)` from
`utils/base.py`. -/
def calculate_completion_timestamp (created_at : DT) (min_days max_days : ℚ) :
    GenM DT := do
  let d0 ← log_normal_days
  let days_to_complete := max min_days (min max_days d0)
  let c1 := created_at + days_to_complete * 86400
  let c2 ←
    if NOW < c1 then do
      let h ← pyRandint 1 48
      pure (NOW - (h : ℚ) * 3600)
    else pure c1
  if c2 ≤ created_at then do
    let h ← pyRandint 2 24
    pure (created_at + (h : ℚ) * 3600)
  else pure c2

/-- `generate_due_date(created_at, distribution, project_due_date)` from
`utils/base.py`. -/
def generate_due_date (created_at : DT) (distribution : List (String × ℚ))
    (project_due_date : Option DT) : GenM (Option DT) := do
  let category ← weighted_choice_dict distribution
  if category = "no_due_date" then
    pure none
  else do
    let base_date := floorDay created_at
    let days_ahead ←
      if category = "within_week" then pyRandint 1 7
      else if category = "within_month" then pyRandint 8 30
      else if category = "one_to_three_months" then pyRandint 31 90
      else if category = "overdue" then do
        let d ← pyRandint 1 14
        pure (-d)
      else pyRandint 1 30
    let due_date := base_date + (days_ahead : ℚ) * 86400
    let due_date ←
      match project_due_date with
      | some pd =>
        if pd < due_date then do
          let back ← pyRandint 0 7
          pure (pd - (back : ℚ) * 86400)
        else pure due_date
      | none => pure due_date
    if 5 ≤ pyWeekday due_date then do
      let r ← pyRandom
      if r < 85/100 then
        if pyWeekday due_date = 5 then pure (some (due_date - 86400))
        else pure (some (due_date + 86400))
      else pure (some due_date)
    else pure (some due_date)

/-- `generate_start_date(due_date, probability)` from `utils/base.py`. -/
def generate_start_date (due_date : Option DT) (probability : ℚ) :
    GenM (Option DT) := do
  match due_date with
  | none => do
    -- the source still consumes a `random()` draw before testing `due_date`?
    -- No: `if due_date is None or random.random() > probability` short-circuits,
    -- so no draw is consumed when the due date is absent.
    pure none
  | some d => do
    let r ← pyRandom
    if probability < r then pure none
    else do
      let days_before ← pyRandint 1 14
      pure (some (d - (days_before : ℚ) * 86400))

/-- `interpolate_timestamp(start, end, progress)` from `utils/base.py`. -/
def interpolate_timestamp (start finish : DT) (progress : ℚ) : DT :=
  start + progress * (finish - start)

/-- One iteration of `generate_creation_wave`'s loop body. -/
def creation_wave_point (count : Nat) (start finish : DT) (growth_curve : String)
    (i : Nat) : GenM DT := do
  let progress ←
    if growth_curve = "linear" then
      pure ((i : ℚ) / (max (count - 1 : Int) 1 : Int))
    else if growth_curve = "exponential" then
      pure ((mexp (2 * i / (count : ℚ)) - 1) / (mexpESq - 1))
    else if growth_curve = "s_curve" then do
      let x := (i : ℚ) / (max (count - 1 : Int) 1 : Int)
      pure (1 / (1 + mexp (-10 * (x - 1/2))))
    else pyRandom
  let jitter ← pyUniform (-5/100) (5/100)
  let progress := max 0 (min 1 (progress + jitter))
  let ts := interpolate_timestamp start finish progress
  random_timestamp (ts - 12 * 3600) (ts + 12 * 3600) false true

/-- Stable insertion into an ascending list: the new element goes after
existing equal elements, as Python's stable `sorted` arranges them. -/
def sortInsert (x : ℚ) : List ℚ → List ℚ
  | [] => [x]
  | y :: ys => if y ≤ x then y :: sortInsert x ys else x :: y :: ys

/-- Model of Python `sorted` on rationals: a stable ascending sort (insertion
sort — extensionally equal to the stable sort the source calls, and
kernel-evaluable). -/
def pySorted (l : List ℚ) : List ℚ := l.foldl (fun acc x => sortInsert x acc) []

/-- `generate_creation_wave(count, start, end, growth_curve)` from
`utils/base.py`: `count` jittered curve samples, sorted ascending. -/
def generate_creation_wave (count : Nat) (start finish : DT)
    (growth_curve : String) : GenM (List DT) := do
  let pts ← (List.range count).mapM (creation_wave_point count start finish growth_curve)
  pure (pySorted pts)

/-! ## Entity records

Each structure carries exactly the keys the corresponding Python dict gets in
its generator (timestamps as second-truncated `Int`s, dates as day-truncated
`Int`s, nullable fields as `Option`). -/

structure Workspace where
  gid : String
  name : String
  domain : String
  is_organization : Nat
  created_at : Int
deriving DecidableEq, Repr

structure User where
  gid : String
  workspace_gid : String
  email : String
  name : String
  photo_url : String
  status : String
  created_at : Int
deriving DecidableEq, Repr

structure WorkspaceMembership where
  workspace_gid : String
  user_gid : String
  is_guest : Nat
  created_at : Int
deriving DecidableEq, Repr

structure TeamMembership where
  team_gid : String
  user_gid : String
deriving DecidableEq, Repr

structure ProjectRec where
  gid : String
  workspace_gid : String
  team_gid : Option String
  owner_gid : Option String
  name : String
  archetype : Option String
  layout : String
  current_status : String
  due_date : Option Int
  archived : Nat
  created_at : Int
deriving DecidableEq, Repr

structure SectionRec where
  gid : String
  workspace_gid : String
  project_gid : String
  name : String
  order_index : Nat
deriving DecidableEq, Repr

structure TaskRec where
  gid : String
  workspace_gid : String
  assignee_gid : Option String
  parent_task_gid : Option String
  name : String
  description : String
  created_at : Int
  start_on : Option Int
  due_on : Option Int
  completed_at : Option Int
  completed : Nat
  is_milestone : Nat
deriving DecidableEq, Repr

/-- The `_`-prefixed scratch keys stored on base tasks during Phase 1 of
`generate_tasks` and deleted before the tasks are returned.  They are
modelled as a side record paired with the task instead of mutated dict
keys. -/
structure TaskScratch where
  project_gid : String
  section_gid : Option String
  archetype : String
  team_gid : Option String
  created_dt : DT
deriving DecidableEq, Repr

structure TaskProjectMembership where
  workspace_gid : String
  task_gid : String
  project_gid : String
  section_gid : Option String
deriving DecidableEq, Repr

structure DependencyRec where
  workspace_gid : String
  predecessor_gid : String
  successor_gid : String
  dep_type : String
deriving DecidableEq, Repr

structure FollowerRec where
  workspace_gid : String
  task_gid : String
  user_gid : String
deriving DecidableEq, Repr

structure FieldDef where
  gid : String
  workspace_gid : String
  name : String
  resource_subtype : String
deriving DecidableEq, Repr

structure FieldOption where
  gid : String
  field_gid : String
  workspace_gid : String
  name : String
  color : String
deriving DecidableEq, Repr

structure ProjectFieldSetting where
  workspace_gid : String
  project_gid : String
  custom_field_gid : String
  is_important : Nat
deriving DecidableEq, Repr

structure CustomFieldValue where
  workspace_gid : String
  task_gid : String
  field_gid : String
  text_value : Option String
  number_value : Option ℚ
  enum_option_gid : Option String
deriving DecidableEq, Repr

instance instDecEqExcept {ε α : Type} [DecidableEq ε] [DecidableEq α] :
    DecidableEq (Except ε α)
  | .error e, .error f =>
    if h : e = f then isTrue (by rw [h])
    else isFalse (by intro hh; cases hh; exact h rfl)
  | .error _, .ok _ => isFalse (by intro hh; cases hh)
  | .ok _, .error _ => isFalse (by intro hh; cases hh)
  | .ok a, .ok b =>
    if h : a = b then isTrue (by rw [h])
    else isFalse (by intro hh; cases hh; exact h rfl)

/-- An all-zeroes oracle, used to instantiate witnesses. -/
def oracleZero : Oracle where
  nat := fun _ => 0
  q := fun _ => 0
  str := fun _ => ""
  uuid := fun _ => 0

/-! ## Claim C5: `weighted_choice` -/

theorem sum_map_div (l : List ℚ) (c : ℚ) :
    (l.map (fun w => w / c)).sum = l.sum / c := by
  induction l with
  | nil => simp
  | cons w ws ih =>
    simp only [List.map_cons, List.sum_cons, ih]
    rw [div_add_div_same]

theorem cumSums_getLastD (weights : List ℚ) :
    (cumSums weights).getLastD 0 = weights.sum := by
  suffices h : ∀ acc : List ℚ,
      (weights.foldl (fun acc w => ((acc.headD 0 + w) :: acc)) acc).headD 0
        = acc.headD 0 + weights.sum by
    have h0 := h []
    simp only [List.headD_nil, zero_add] at h0
    rw [cumSums, List.getLastD_eq_getLast?, List.getLast?_reverse,
      ← List.headD_eq_head?_getD, h0]
  induction weights with
  | nil => intro acc; simp
  | cons w ws ih =>
    intro acc
    simp only [List.foldl_cons, ih, List.sum_cons, List.headD_cons]
    ring

theorem getD_mem {α : Type} {l : List α} {i : Nat} {d : α} (h : i < l.length) :
    l.getD i d ∈ l := by
  rw [List.getD_eq_getElem l d h]
  exact List.getElem_mem h

/-- C5 counterexample: one option with weight zero makes the source raise
`ZeroDivisionError` (the normalisation divides by `sum(weights) = 0`), so
`weighted_choice` does not return an option for every non-empty `options`
list. -/
theorem weighted_choice_zero_sum_raises :
    weighted_choice ["a"] [(0 : ℚ)] oracleZero 0 = .error .zeroDivision := by
  with_unfolding_all decide

/-- C5 (amended): with empty options every call fails with an error (the
spec's `EmptyDistribution`); with non-empty options, a weight list of the
same length whose sum is non-zero (pre-normalisation is not required), the
call returns one of the options. -/
theorem weighted_choice_spec {α : Type} (options : List α) (weights : List ℚ)
    (o : Oracle) (n : Nat) :
    (options = [] → ∃ e, weighted_choice options weights o n = .error e) ∧
    (options ≠ [] → weights.length = options.length → weights.sum ≠ 0 →
      ∃ x, weighted_choice options weights o n = .ok (x, n + 1) ∧ x ∈ options) := by
  constructor
  · rintro rfl
    unfold weighted_choice
    simp only []
    split
    · exact ⟨.zeroDivision, rfl⟩
    · rename_i hgate
      unfold pyChoicesW
      simp only []
      split
      · exact ⟨.valueError, rfl⟩
      · rename_i hlen
        simp only [cumSums_length, List.length_map, List.length_nil] at hlen
        have hw0 : weights.length = 0 := by omega
        have : weights = [] := List.length_eq_zero.mp hw0
        subst this
        exact ⟨.indexError, rfl⟩
  · intro hne hlen hsum
    unfold weighted_choice
    simp only []
    split
    · rename_i hgate
      exact absurd hgate.1 hsum
    · unfold pyChoicesW
      simp only []
      split
      · rename_i hl
        exfalso
        apply hl
        simp [cumSums_length, hlen]
      · rename_i hl
        obtain ⟨p, rest, rfl⟩ := List.exists_cons_of_ne_nil hne
        have htot : (cumSums ((weights.map (fun w => w / weights.sum)))).getLastD 0 = 1 := by
          rw [cumSums_getLastD, sum_map_div, div_self hsum]
        simp only [htot]
        split
        · rename_i hle
          exact absurd hle (by norm_num)
        · refine ⟨_, rfl, ?_⟩
          apply getD_mem
          have hb := bisectRight_le (cumSums (weights.map (fun w => w / weights.sum)))
            (unitClamp (o.q n) * 1) 0 ((p :: rest).length - 1) (Nat.zero_le _)
          simp only [List.length_cons] at hb ⊢
          omega

/-- C5 witness: a concrete successful draw obtained from
`weighted_choice_spec`. -/
theorem weighted_choice_spec_witness :
    (["a", "b"] : List String) ≠ [] ∧
    ∃ x, weighted_choice ["a", "b"] [(1 : ℚ), 3] oracleZero 0 = .ok (x, 1) ∧
      x ∈ ["a", "b"] :=
  ⟨by decide, (weighted_choice_spec ["a", "b"] [(1 : ℚ), 3] oracleZero 0).2
    (by decide) (by decide) (by norm_num)⟩

/-! ## Claim C1: `created_at ≤ completed_at ≤ NOW`

`calculate_completion_timestamp`'s docstring promises
`completed_at >= created_at and <= NOW`, and `generate_tasks`' header lists
`created_at <= completed_at <= NOW` among its temporal-consistency rules.
The double repair violates the upper bound: when `created_at` is close to
`NOW` (reachable — Phase 2 clamps a subtask's creation to as late as
`NOW - 1 hour`), the first repair can jump behind `created_at` and the second
repair then lands strictly after `NOW`. -/

/-- Oracle for the C1 failing run: log-normal draw `0.5` days, then repair
draws `48` hours back and `24` hours forward. -/
def oracleC1 : Oracle where
  nat := fun i => if i = 1 then 47 else if i = 2 then 22 else 0
  q := fun _ => 1/2
  str := fun _ => ""
  uuid := fun _ => 0

/-- C1: evaluated at `created_at = NOW - 1h` with the draws above, the
function returns an instant strictly after `NOW` (namely `NOW + 23h`),
violating `completed_at ≤ NOW`; the lower bound `created_at < completed_at`
does hold on this run. -/
theorem calculate_completion_timestamp_exceeds_now :
    (match calculate_completion_timestamp (NOW - 3600) (1/10) 30 oracleC1 0 with
      | .ok (t, _) => decide (NOW < t) && decide (NOW - 3600 < t)
      | .error _ => false) = true := by
  with_unfolding_all decide

/-! ## Claim C9: `insert_records` from `src/main.py`

The storage sink (SQLite) is external to the repository; per the spec's
storage contract it is modelled as a table of keyed rows whose insert
primitive raises `IntegrityError` exactly when the new row's primary key is
already present.  `insert_records` catches the error per record and keeps
going, so in the embedding it is a total function on the table — the absence
of an `Except` in its type is the no-throw guarantee. -/

/-- One `conn.execute(INSERT ...)` call against the modelled sink. -/
def sink_insert {κ α : Type} [DecidableEq κ] (tbl : List (κ × α)) (r : κ × α) :
    Except PyErr (List (κ × α)) :=
  if tbl.any (fun row => decide (row.1 = r.1)) then .error .integrityError
  else .ok (tbl ++ [r])

/-- `insert_records(conn, table_name, records)` from `src/main.py`: insert
each record, silently skipping `IntegrityError`. -/
def insert_records {κ α : Type} [DecidableEq κ] (tbl : List (κ × α))
    (records : List (κ × α)) : List (κ × α) :=
  records.foldl
    (fun t r =>
      match sink_insert t r with
      | .ok t' => t'
      | .error _ => t)
    tbl

theorem sink_step_eq {κ α : Type} [DecidableEq κ] (t : List (κ × α)) (r : κ × α) :
    (match sink_insert t r with
      | .ok t' => t'
      | .error _ => t)
      = if t.any (fun row => decide (row.1 = r.1)) then t else t ++ [r] := by
  by_cases h : t.any (fun row => decide (row.1 = r.1)) = true
  · simp [sink_insert, h]
  · simp [sink_insert, h]

theorem sink_step_keys_mono {κ α : Type} [DecidableEq κ] (t : List (κ × α))
    (r : κ × α) :
    t.map Prod.fst ⊆ (match sink_insert t r with
      | .ok t' => t'
      | .error _ => t).map Prod.fst := by
  rw [sink_step_eq]
  split
  · exact fun x hx => hx
  · intro x hx
    simp only [List.map_append, List.mem_append]
    exact Or.inl hx

theorem insert_records_keys_mono {κ α : Type} [DecidableEq κ] :
    ∀ (records : List (κ × α)) (tbl : List (κ × α)),
      tbl.map Prod.fst ⊆ (insert_records tbl records).map Prod.fst := by
  intro records
  induction records with
  | nil => intro tbl; exact fun x hx => hx
  | cons r rs ih =>
    intro tbl
    intro x hx
    simp only [insert_records, List.foldl_cons]
    exact ih _ (sink_step_keys_mono tbl r hx)

theorem insert_records_key_mem {κ α : Type} [DecidableEq κ] :
    ∀ (records : List (κ × α)) (tbl : List (κ × α)) (r : κ × α), r ∈ records →
      r.1 ∈ (insert_records tbl records).map Prod.fst := by
  intro records
  induction records with
  | nil =>
    intro tbl r hr
    simp at hr
  | cons s rs ih =>
    intro tbl r hr
    rcases List.mem_cons.mp hr with rfl | hr'
    · have hstep : r.1 ∈ (match sink_insert tbl r with
          | .ok t' => t'
          | .error _ => tbl).map Prod.fst := by
        rw [sink_step_eq]
        split
        · rename_i hany
          simp only [List.any_eq_true, decide_eq_true_eq] at hany
          obtain ⟨row, hrow, hkey⟩ := hany
          exact hkey ▸ List.mem_map_of_mem Prod.fst hrow
        · simp only [List.map_append, List.mem_append]
          exact Or.inr (by simp)
      simp only [insert_records, List.foldl_cons]
      exact insert_records_keys_mono rs _ hstep
    · simp only [insert_records, List.foldl_cons]
      exact ih _ r hr'

theorem insert_records_fixed {κ α : Type} [DecidableEq κ] :
    ∀ (records : List (κ × α)) (tbl : List (κ × α)),
      (∀ r ∈ records, r.1 ∈ tbl.map Prod.fst) →
      insert_records tbl records = tbl := by
  intro records
  induction records with
  | nil => intro tbl _; rfl
  | cons r rs ih =>
    intro tbl hmem
    have hr := hmem r (List.mem_cons_self r rs)
    have hstep : (match sink_insert tbl r with
        | .ok t' => t'
        | .error _ => tbl) = tbl := by
      rw [sink_step_eq]
      split
      · rfl
      · rename_i hany
        exfalso
        apply hany
        simp only [List.mem_map] at hr
        obtain ⟨row, hrow, hkey⟩ := hr
        simp only [List.any_eq_true, decide_eq_true_eq]
        exact ⟨row, hrow, hkey⟩
    simp only [insert_records, List.foldl_cons, hstep]
    exact ih tbl (fun s hs => hmem s (List.mem_cons_of_mem _ hs))

theorem insert_records_nodup {κ α : Type} [DecidableEq κ] :
    ∀ (records : List (κ × α)) (tbl : List (κ × α)),
      (tbl.map Prod.fst).Nodup → ((insert_records tbl records).map Prod.fst).Nodup := by
  intro records
  induction records with
  | nil => intro tbl h; exact h
  | cons r rs ih =>
    intro tbl h
    simp only [insert_records, List.foldl_cons]
    apply ih
    rw [sink_step_eq]
    split
    · exact h
    · rename_i hany
      simp only [List.any_eq_true, decide_eq_true_eq, not_exists] at hany
      simp only [List.map_append, List.map_cons, List.map_nil]
      rw [List.nodup_append]
      refine ⟨h, List.nodup_singleton _, ?_⟩
      intro k hk hk1
      simp only [List.mem_singleton] at hk1
      simp only [List.mem_map] at hk
      obtain ⟨row, hrow, hkey⟩ := hk
      exact hany row ⟨hrow, by rw [hkey, hk1]⟩

/-- C9: the storage append is a total function (duplicate-key conflicts are
swallowed per record, never escaping), re-running it over the same record
batch leaves the sink unchanged, and it never introduces a duplicate primary
key into a sink that had none. -/
theorem insert_records_idempotent_and_safe {κ α : Type} [DecidableEq κ]
    (tbl : List (κ × α)) (records : List (κ × α)) :
    insert_records (insert_records tbl records) records = insert_records tbl records ∧
    ((tbl.map Prod.fst).Nodup → ((insert_records tbl records).map Prod.fst).Nodup) := by
  constructor
  · exact insert_records_fixed records _
      (fun r hr => insert_records_key_mem records tbl r hr)
  · exact insert_records_nodup records tbl

/-- C9 witness: concrete instantiation with a string-keyed table, including a
record whose key is already present in the sink. -/
theorem insert_records_idempotent_and_safe_witness :
    insert_records (insert_records [("k1", 1)] [("k1", 7), ("k2", 2)])
        [("k1", 7), ("k2", 2)]
      = insert_records [(("k1" : String), (1 : Nat))] [("k1", 7), ("k2", 2)] ∧
    ((([(("k1" : String), (1 : Nat))]).map Prod.fst).Nodup →
      ((insert_records [(("k1" : String), (1 : Nat))] [("k1", 7), ("k2", 2)]).map
        Prod.fst).Nodup) :=
  insert_records_idempotent_and_safe [("k1", 1)] [("k1", 7), ("k2", 2)]

/-! ## Claim C3: seed determinism and `generate_workspaces`

`utils/base.py` seeds the `random` module once (`random.seed(SEED)`), but
`generate_gid` draws its 128-bit value from `uuid.uuid4()`, which reads
operating-system entropy that `random.seed` does not control.  Two runs with
the same seed (identical seeded streams) can therefore differ in every `gid`.
`generate_workspaces` from `generators/workspaces.py` — the first generator of
the pipeline, and one that consumes both streams — witnesses this. -/

/-- `COMPANY_NAMES` from `scrapers/data_sources.py`. -/
def COMPANY_NAMES : List String :=
  ["Nexus", "Quantum", "Vertex", "Prism", "Flux", "Nova", "Orbit", "Pulse",
   "Vector", "Helix", "Cipher", "Atlas", "Zenith", "Forge", "Spark", "Volt",
   "TechForge", "DataFlow", "CloudNine", "CodeSync", "DevStack", "NetPulse",
   "AppSphere", "ByteWave", "PixelCraft", "LogicHub", "CyberLink", "InfoBridge",
   "Synergy", "Catalyst", "Horizon", "Momentum", "Elevate", "Amplify",
   "Converge", "Streamline", "Innovex", "Dynamix", "Optima", "Kinetic"]

/-- `get_random_company_name` from `scrapers/data_sources.py`. -/
def get_random_company_name : GenM String := pyChoice COMPANY_NAMES

/-- Model of Python `str.lower()` (maps `Char.toLower`, exact on the ASCII
data used here). -/
def pyLower (s : String) : String := String.mk (s.data.map Char.toLower)

/-- Model of `str.replace(" ", "")`: drop every space. -/
def pyRemoveSpaces (s : String) : String :=
  String.mk (s.data.filter (fun c => decide (c ≠ ' ')))

/-- The loop body of `generate_workspaces`: remaining count, current index. -/
def generate_workspaces_loop : Nat → Nat → GenM (List Workspace)
  | 0, _ => pure []
  | k + 1, i => do
    let company_name ← get_random_company_name
    let domain :=
      if i > 0 then
        pyRemoveSpaces (pyLower company_name) ++ String.mk (pyStr i) ++ ".com"
      else
        pyRemoveSpaces (pyLower company_name) ++ ".com"
    let gid ← generate_gid
    let ws : Workspace :=
      { gid := gid
        name := company_name
        domain := domain
        is_organization := 1
        created_at := format_timestamp (HISTORY_START - 30 * 86400) }
    let rest ← generate_workspaces_loop k (i + 1)
    pure (ws :: rest)

/-- `generate_workspaces()` from `generators/workspaces.py`, with
`VOLUMES["workspaces"]` injected. -/
def generate_workspaces (numWorkspaces : Nat) : GenM (List Workspace) :=
  generate_workspaces_loop numWorkspaces 0

/-- Oracle whose seeded streams are all zero but whose OS-entropy stream
yields a first uuid of `1111111111111111`. -/
def oracleUuidA : Oracle where
  nat := fun _ => 0
  q := fun _ => 0
  str := fun _ => ""
  uuid := fun _ => 1111111111111111

/-- Same seeded streams as `oracleUuidA`, different OS entropy. -/
def oracleUuidB : Oracle where
  nat := fun _ => 0
  q := fun _ => 0
  str := fun _ => ""
  uuid := fun _ => 2222222222222222

/-- C3 counterexample: two runs of the first pipeline generator whose seeded
streams coincide draw-for-draw but whose `uuid4` entropy differs produce
different output collections (the workspace `gid`s differ), so identical seed
does not imply identical output. -/
theorem generate_workspaces_not_seed_determined :
    oracleUuidA.nat = oracleUuidB.nat ∧ oracleUuidA.q = oracleUuidB.q ∧
    oracleUuidA.str = oracleUuidB.str ∧
    generate_workspaces 1 oracleUuidA 0 ≠ generate_workspaces 1 oracleUuidB 0 := by
  refine ⟨rfl, rfl, rfl, ?_⟩
  with_unfolding_all decide

/-- C3 (amended): every generator is a deterministic function of the seeded
stream together with the `uuid4` entropy stream — two runs whose oracles
agree on all four streams produce identical outputs.  (Stated for
`generate_workspaces`; every embedded generator is a plain function of the
same oracle type, so the same argument applies verbatim.) -/
theorem generate_workspaces_deterministic (numWorkspaces : Nat) (k : Nat)
    (o1 o2 : Oracle) (hnat : o1.nat = o2.nat) (hq : o1.q = o2.q)
    (hstr : o1.str = o2.str) (huuid : o1.uuid = o2.uuid) :
    generate_workspaces numWorkspaces o1 k = generate_workspaces numWorkspaces o2 k := by
  obtain ⟨n1, q1, s1, u1⟩ := o1
  obtain ⟨n2, q2, s2, u2⟩ := o2
  simp only at hnat hq hstr huuid
  subst hnat
  subst hq
  subst hstr
  subst huuid
  rfl

/-- Oracle extensionally equal to `oracleZero` but syntactically distinct. -/
def oracleZeroB : Oracle where
  nat := fun i => 0 * i
  q := fun _ => 0
  str := fun _ => ""
  uuid := fun i => i * 0

/-- C3 witness: the amended determinism applied to two syntactically distinct
oracles with extensionally equal streams. -/
theorem generate_workspaces_deterministic_witness :
    generate_workspaces 1 oracleZero 0 = generate_workspaces 1 oracleZeroB 0 :=
  generate_workspaces_deterministic 1 0 oracleZero oracleZeroB
    (funext fun i => by simp [oracleZero, oracleZeroB])
    rfl rfl
    (funext fun i => by simp [oracleZero, oracleZeroB])

/-! ## `generators/dependencies.py` -/

/-- Dict-key order of Python's grouping loop: workspace gids in first
occurrence order. -/
def keysInOrder : List String → List String → List String
  | [], _ => []
  | x :: xs, seen => if x ∈ seen then keysInOrder xs seen else x :: keysInOrder xs (x :: seen)

/-- `is_valid_dependency(predecessor, successor, dep_type)` from
`generators/dependencies.py`.  `parse_date` is the identity on the embedded
representation (dates are stored as day numbers that always parse). -/
def is_valid_dependency (predecessor successor : TaskRec) (dep_type : String) : Bool :=
  if dep_type = "finish_to_start" then
    match predecessor.due_on, successor.start_on with
    | some pd, some ss => decide (pd ≤ ss)
    | _, _ => true
  else if dep_type = "start_to_start" then
    match predecessor.start_on, successor.start_on with
    | some ps, some ss => decide (ps ≤ ss)
    | _, _ => true
  else if dep_type = "finish_to_finish" then
    match predecessor.due_on, successor.due_on with
    | some pd, some sd => decide (pd ≤ sd)
    | _, _ => true
  else true

/-- The `for _ in range(10)` retry loop for one successor. -/
def dep_attempts (ws : String) (dated : List TaskRec) (succ : TaskRec)
    (dep_type : String) (existing : List (String × String)) :
    Nat → GenM (Option DependencyRec)
  | 0 => pure none
  | k + 1 => do
    let predecessor ← pyChoice dated
    if predecessor.gid = succ.gid then
      dep_attempts ws dated succ dep_type existing k
    else if (predecessor.gid, succ.gid) ∈ existing then
      dep_attempts ws dated succ dep_type existing k
    else if is_valid_dependency predecessor succ dep_type then
      pure (some
        { workspace_gid := ws
          predecessor_gid := predecessor.gid
          successor_gid := succ.gid
          dep_type := dep_type })
    else
      dep_attempts ws dated succ dep_type existing k

/-- Loop over the successors of one workspace, threading the accumulated
dependency list and the `existing_deps` ordered-pair set. -/
def dep_successors (ws : String) (dated : List TaskRec) :
    List TaskRec → List DependencyRec → List (String × String) →
    GenM (List DependencyRec × List (String × String))
  | [], deps, existing => pure (deps, existing)
  | succ :: rest, deps, existing => do
    let gate ← probability_check depTasksWithDependenciesRatio
    if gate then do
      let dep_type ← weighted_choice_dict depTypeWeights
      let r ← dep_attempts ws dated succ dep_type existing 10
      match r with
      | some d =>
        dep_successors ws dated rest (deps ++ [d])
          (existing ++ [(d.predecessor_gid, d.successor_gid)])
      | none => dep_successors ws dated rest deps existing
    else
      dep_successors ws dated rest deps existing

/-- Loop over the workspaces (dict iteration order). -/
def dep_workspaces (tasks : List TaskRec) :
    List String → List DependencyRec → List (String × String) →
    GenM (List DependencyRec)
  | [], deps, _ => pure deps
  | w :: ws', deps, existing => do
    let ws_tasks := tasks.filter (fun t => decide (t.workspace_gid = w))
    let dated := ws_tasks.filter (fun t => t.due_on.isSome || t.start_on.isSome)
    if dated.length < 2 then
      dep_workspaces tasks ws' deps existing
    else do
      let (deps', existing') ← dep_successors w dated dated deps existing
      dep_workspaces tasks ws' deps' existing'

/-- `generate_task_dependencies(tasks)` from `generators/dependencies.py`. -/
def generate_task_dependencies (tasks : List TaskRec) : GenM (List DependencyRec) :=
  dep_workspaces tasks (keysInOrder (tasks.map (fun t => t.workspace_gid)) []) [] []

/-! ## `generate_task_followers` from `generators/dependencies.py` -/

/-- Follower records contributed by one task. -/
def followers_for_task (users : List User) (task : TaskRec) :
    GenM (List FollowerRec) := do
  let gate ← probability_check (40/100)
  if gate then do
    let ws_users := users.filter (fun u => decide (u.workspace_gid = task.workspace_gid))
    if ws_users.isEmpty then pure []
    else do
      let num ← pyRandint 1 (min 4 ws_users.length)
      let selected ← pySample ws_users num.toNat
      pure ((selected.filter
          (fun u => decide (¬ (task.assignee_gid = some u.gid)))).map
        (fun u =>
          { workspace_gid := task.workspace_gid
            task_gid := task.gid
            user_gid := u.gid }))
  else pure []

/-- The task loop of `generate_task_followers`. -/
def followers_loop (users : List User) :
    List TaskRec → List FollowerRec → GenM (List FollowerRec)
  | [], acc => pure acc
  | task :: rest, acc => do
    let fs ← followers_for_task users task
    followers_loop users rest (acc ++ fs)

/-- `generate_task_followers(tasks, users)` from
`generators/dependencies.py`. -/
def generate_task_followers (tasks : List TaskRec) (users : List User) :
    GenM (List FollowerRec) :=
  followers_loop users tasks []

/-! ## Claim C4: dependency pair uniqueness

`generate_task_dependencies` deduplicates via the ordered pair
`(predecessor_gid, successor_gid)` only, so the two orientations of the same
unordered task pair can both be emitted. -/

/-- First task of the C4 runs: gid `"a"`, only a due date. -/
def taskC4a : TaskRec :=
  { gid := "a", workspace_gid := "w", assignee_gid := none,
    parent_task_gid := none, name := "t1", description := "",
    created_at := 0, start_on := none, due_on := some 0,
    completed_at := none, completed := 0, is_milestone := 0 }

/-- Second task of the C4 runs: gid `"b"`, only a due date. -/
def taskC4b : TaskRec :=
  { gid := "b", workspace_gid := "w", assignee_gid := none,
    parent_task_gid := none, name := "t2", description := "",
    created_at := 0, start_on := none, due_on := some 0,
    completed_at := none, completed := 0, is_milestone := 0 }

/-- Oracle for the C4 counterexample: successor `"a"` draws predecessor `"b"`
and successor `"b"` draws predecessor `"a"`; every probability gate passes. -/
def oracleC4 : Oracle where
  nat := fun i => if i = 2 then 1 else 0
  q := fun _ => 0
  str := fun _ => ""
  uuid := fun _ => 0

/-- C4 counterexample: a run that returns both `(b, a)` and `(a, b)` — the
unordered pair `{a, b}` appears in two distinct dependency records, which the
claim forbids (only duplicate *ordered* pairs are prevented by
`existing_deps`). -/
theorem generate_task_dependencies_unordered_dup :
    generate_task_dependencies [taskC4a, taskC4b] oracleC4 0 =
      .ok ([{ workspace_gid := "w", predecessor_gid := "b", successor_gid := "a",
              dep_type := "finish_to_start" },
            { workspace_gid := "w", predecessor_gid := "a", successor_gid := "b",
              dep_type := "finish_to_start" }], 6) := by
  with_unfolding_all decide

/-- Ordered pair of a dependency record. -/
def depPair (d : DependencyRec) : String × String :=
  (d.predecessor_gid, d.successor_gid)

/-- Loop invariant tying the accumulated dependency list to `existing_deps`:
the set holds exactly the emitted ordered pairs, those are pairwise distinct,
and no emitted record is a self-pair. -/
def DepInv (deps : List DependencyRec) (existing : List (String × String)) : Prop :=
  existing = deps.map depPair ∧ (deps.map depPair).Nodup ∧
    ∀ d ∈ deps, d.predecessor_gid ≠ d.successor_gid

theorem dep_attempts_spec :
    ∀ (fuel : Nat) (ws : String) (dated : List TaskRec) (succ : TaskRec)
      (dt : String) (existing : List (String × String)) (o : Oracle) (n : Nat)
      (r : Option DependencyRec) (n' : Nat),
      dep_attempts ws dated succ dt existing fuel o n = .ok (r, n') →
      ∀ d, r = some d →
        d.predecessor_gid ≠ d.successor_gid ∧
        (d.predecessor_gid, d.successor_gid) ∉ existing := by
  intro fuel
  induction fuel with
  | zero =>
    intro ws dated succ dt existing o n r n' h d hd
    simp only [dep_attempts, GenM.pure_def, Except.ok.injEq, Prod.mk.injEq] at h
    rw [← h.1] at hd
    simp at hd
  | succ k ih =>
    intro ws dated succ dt existing o n r n' h d hd
    simp only [dep_attempts, GenM.bind_def] at h
    cases hc : pyChoice dated o n with
    | error e =>
      simp only [hc] at h
      exact absurd h (by simp)
    | ok p =>
      obtain ⟨pred, n1⟩ := p
      simp only [hc] at h
      split at h
      · exact ih ws dated succ dt existing o n1 r n' h d hd
      · split at h
        · exact ih ws dated succ dt existing o n1 r n' h d hd
        · split at h
          · rename_i h1 h2 h3
            simp only [GenM.pure_def, Except.ok.injEq, Prod.mk.injEq] at h
            rw [← h.1] at hd
            cases hd
            exact ⟨h1, h2⟩
          · exact ih ws dated succ dt existing o n1 r n' h d hd

theorem dep_successors_spec :
    ∀ (succs : List TaskRec) (ws : String) (dated : List TaskRec)
      (deps : List DependencyRec) (existing : List (String × String))
      (o : Oracle) (n : Nat) (out : List DependencyRec × List (String × String))
      (n' : Nat),
      DepInv deps existing →
      dep_successors ws dated succs deps existing o n = .ok (out, n') →
      DepInv out.1 out.2 := by
  intro succs
  induction succs with
  | nil =>
    intro ws dated deps existing o n out n' hinv h
    simp only [dep_successors, GenM.pure_def, Except.ok.injEq, Prod.mk.injEq] at h
    rw [← h.1]
    exact hinv
  | cons succ rest ih =>
    intro ws dated deps existing o n out n' hinv h
    simp only [dep_successors, GenM.bind_def, probability_check] at h
    split at h
    · rw [GenM.bind_def] at h
      cases hw : weighted_choice_dict depTypeWeights o (n + 1) with
      | error e =>
        simp only [hw] at h
        exact absurd h (by simp)
      | ok pdt =>
        obtain ⟨dt, n2⟩ := pdt
        simp only [hw] at h
        rw [GenM.bind_def] at h
        cases ha : dep_attempts ws dated succ dt existing 10 o n2 with
        | error e =>
          simp only [ha] at h
          exact absurd h (by simp)
        | ok pr =>
          obtain ⟨r, n3⟩ := pr
          simp only [ha] at h
          cases r with
          | none =>
            exact ih ws dated deps existing o n3 out n' hinv h
          | some d =>
            have hd := dep_attempts_spec 10 ws dated succ dt existing o n2
              (some d) n3 ha d rfl
            apply ih ws dated (deps ++ [d])
              (existing ++ [(d.predecessor_gid, d.successor_gid)]) o n3 out n' ?_ h
            obtain ⟨he, hnd, hne⟩ := hinv
            refine ⟨?_, ?_, ?_⟩
            · rw [he]
              simp [depPair]
            · simp only [List.map_append, List.map_cons, List.map_nil]
              rw [List.nodup_append]
              refine ⟨hnd, List.nodup_singleton _, ?_⟩
              intro pr hpr hpr1
              simp only [List.mem_singleton] at hpr1
              have hprm : pr ∈ existing := by rw [he]; exact hpr
              rw [hpr1] at hprm
              exact hd.2 hprm
            · intro d' hd'
              rcases List.mem_append.mp hd' with hd' | hd'
              · exact hne d' hd'
              · simp only [List.mem_singleton] at hd'
                rw [hd']
                exact hd.1
    · exact ih ws dated deps existing o (n + 1) out n' hinv h

theorem dep_workspaces_spec :
    ∀ (wskeys : List String) (tasks : List TaskRec) (deps : List DependencyRec)
      (existing : List (String × String)) (o : Oracle) (n : Nat)
      (out : List DependencyRec) (n' : Nat),
      DepInv deps existing →
      dep_workspaces tasks wskeys deps existing o n = .ok (out, n') →
      (out.map depPair).Nodup ∧ ∀ d ∈ out, d.predecessor_gid ≠ d.successor_gid := by
  intro wskeys
  induction wskeys with
  | nil =>
    intro tasks deps existing o n out n' hinv h
    simp only [dep_workspaces, GenM.pure_def, Except.ok.injEq, Prod.mk.injEq] at h
    rw [← h.1]
    exact ⟨hinv.2.1, hinv.2.2⟩
  | cons w ws' ih =>
    intro tasks deps existing o n out n' hinv h
    simp only [dep_workspaces] at h
    split at h
    · exact ih tasks deps existing o n out n' hinv h
    · rw [GenM.bind_def] at h
      cases hs : dep_successors w
          ((tasks.filter (fun t => decide (t.workspace_gid = w))).filter
            (fun t => t.due_on.isSome || t.start_on.isSome))
          ((tasks.filter (fun t => decide (t.workspace_gid = w))).filter
            (fun t => t.due_on.isSome || t.start_on.isSome))
          deps existing o n with
      | error e =>
        simp only [hs] at h
        exact absurd h (by simp)
      | ok pr =>
        obtain ⟨⟨deps', existing'⟩, n2⟩ := pr
        simp only [hs] at h
        have hinv' := dep_successors_spec _ _ _ _ _ _ _ _ _ hinv hs
        exact ih tasks deps' existing' o n2 out n' hinv' h

/-- C4 (amended): in the list returned by `generate_task_dependencies` no
record has `predecessor_gid = successor_gid`, and no *ordered* pair
`(predecessor_gid, successor_gid)` appears in two distinct records; the two
orientations of one unordered pair may however both occur. -/
theorem generate_task_dependencies_spec (tasks : List TaskRec) (o : Oracle)
    (n : Nat) (deps : List DependencyRec) (n' : Nat)
    (h : generate_task_dependencies tasks o n = .ok (deps, n')) :
    (∀ d ∈ deps, d.predecessor_gid ≠ d.successor_gid) ∧
    (deps.map depPair).Nodup := by
  simp only [generate_task_dependencies] at h
  have := dep_workspaces_spec
    (keysInOrder (tasks.map (fun t => t.workspace_gid)) []) tasks [] [] o n deps n'
    ⟨rfl, List.nodup_nil, by simp⟩ h
  exact ⟨this.2, this.1⟩

/-- C4 witness: the amended statement instantiated on a concrete run (the
all-zeroes oracle spends all ten attempts of the first successor on the
self-pair, then emits a single `(a, b)` dependency for the second). -/
theorem generate_task_dependencies_spec_witness :
    (∀ d ∈ [({ workspace_gid := "w", predecessor_gid := "a", successor_gid := "b",
               dep_type := "finish_to_start" } : DependencyRec)],
        d.predecessor_gid ≠ d.successor_gid) ∧
    (([({ workspace_gid := "w", predecessor_gid := "a", successor_gid := "b",
          dep_type := "finish_to_start" } : DependencyRec)]).map depPair).Nodup :=
  generate_task_dependencies_spec [taskC4a, taskC4b] oracleZero 0
    [{ workspace_gid := "w", predecessor_gid := "a", successor_gid := "b",
       dep_type := "finish_to_start" }] 15
    (by with_unfolding_all decide)

/-! ## Claim C10: follower records -/

/-- The property C10 asserts of one follower record: it belongs to a
generated task, its user is a user of that task's workspace, and it is not
the task's assignee. -/
def FollowerOk (tasks : List TaskRec) (users : List User) (f : FollowerRec) : Prop :=
  ∃ t ∈ tasks, ∃ u ∈ users,
    f.task_gid = t.gid ∧ f.workspace_gid = t.workspace_gid ∧
    f.user_gid = u.gid ∧ u.workspace_gid = t.workspace_gid ∧
    ¬ (t.assignee_gid = some u.gid)

theorem followers_for_task_spec (users : List User) (task : TaskRec)
    (o : Oracle) (n : Nat) (fs : List FollowerRec) (n' : Nat)
    (h : followers_for_task users task o n = .ok (fs, n')) :
    ∀ f ∈ fs, ∃ u ∈ users,
      f.task_gid = task.gid ∧ f.workspace_gid = task.workspace_gid ∧
      f.user_gid = u.gid ∧ u.workspace_gid = task.workspace_gid ∧
      ¬ (task.assignee_gid = some u.gid) := by
  simp only [followers_for_task, GenM.bind_def, probability_check] at h
  split at h
  · split at h
    · simp only [GenM.pure_def, Except.ok.injEq, Prod.mk.injEq] at h
      rw [← h.1]
      simp
    · rw [GenM.bind_def] at h
      cases hr : pyRandint 1
          (min 4 (users.filter
            (fun u => decide (u.workspace_gid = task.workspace_gid))).length) o (n + 1) with
      | error e =>
        simp only [hr] at h
        exact absurd h (by simp)
      | ok pnum =>
        obtain ⟨num, n2⟩ := pnum
        simp only [hr] at h
        rw [GenM.bind_def] at h
        cases hsm : pySample
            (users.filter (fun u => decide (u.workspace_gid = task.workspace_gid)))
            num.toNat o n2 with
        | error e =>
          simp only [hsm] at h
          exact absurd h (by simp)
        | ok psel =>
          obtain ⟨selected, n3⟩ := psel
          simp only [hsm] at h
          simp only [GenM.pure_def, Except.ok.injEq, Prod.mk.injEq] at h
          rw [← h.1]
          intro f hf
          simp only [List.mem_map, List.mem_filter] at hf
          obtain ⟨u, ⟨hu_sel, hu_keep⟩, rfl⟩ := hf
          have hu_ws := pySample_sub hsm u hu_sel
          simp only [List.mem_filter, decide_eq_true_eq] at hu_ws
          refine ⟨u, hu_ws.1, rfl, rfl, rfl, hu_ws.2, ?_⟩
          simpa using hu_keep
  · simp only [GenM.pure_def, Except.ok.injEq, Prod.mk.injEq] at h
    rw [← h.1]
    simp

theorem followers_loop_spec (users : List User) (tasks : List TaskRec) :
    ∀ (ts : List TaskRec) (acc : List FollowerRec) (o : Oracle) (n : Nat)
      (fs : List FollowerRec) (n' : Nat),
      (∀ t ∈ ts, t ∈ tasks) →
      (∀ f ∈ acc, FollowerOk tasks users f) →
      followers_loop users ts acc o n = .ok (fs, n') →
      ∀ f ∈ fs, FollowerOk tasks users f := by
  intro ts
  induction ts with
  | nil =>
    intro acc o n fs n' _ hacc h
    simp only [followers_loop, GenM.pure_def, Except.ok.injEq, Prod.mk.injEq] at h
    rw [← h.1]
    exact hacc
  | cons task rest ih =>
    intro acc o n fs n' hts hacc h
    simp only [followers_loop, GenM.bind_def] at h
    cases ht : followers_for_task users task o n with
    | error e =>
      simp only [ht] at h
      exact absurd h (by simp)
    | ok pfs =>
      obtain ⟨new, n2⟩ := pfs
      simp only [ht] at h
      apply ih (acc ++ new) o n2 fs n'
        (fun t htm => hts t (List.mem_cons_of_mem _ htm)) ?_ h
      intro f hf
      rcases List.mem_append.mp hf with hf | hf
      · exact hacc f hf
      · have := followers_for_task_spec users task o n new n2 ht f hf
        obtain ⟨u, hu, h1, h2, h3, h4, h5⟩ := this
        exact ⟨task, hts task (List.mem_cons_self task rest), u, hu, h1, h2, h3, h4, h5⟩

/-- C10: every record produced by `generate_task_followers` names a user of
the followed task's workspace who is not that task's assignee. -/
theorem generate_task_followers_spec (tasks : List TaskRec) (users : List User)
    (o : Oracle) (n : Nat) (fs : List FollowerRec) (n' : Nat)
    (h : generate_task_followers tasks users o n = .ok (fs, n')) :
    ∀ f ∈ fs, FollowerOk tasks users f := by
  simp only [generate_task_followers] at h
  exact followers_loop_spec users tasks tasks [] o n fs n'
    (fun t ht => ht) (by simp) h

/-- The user record used by the C10 witness run. -/
def userC10 : User :=
  { gid := "u1", workspace_gid := "w", email := "james.smith@nexus.com",
    name := "James Smith", photo_url := "", status := "active", created_at := 0 }

/-- C10 witness: the theorem instantiated on a concrete one-task, one-user
run (the all-zeroes oracle passes the 40% gate, samples the single workspace
user, and emits one follower record). -/
theorem generate_task_followers_spec_witness :
    FollowerOk [taskC4a] [userC10]
      { workspace_gid := "w", task_gid := "a", user_gid := "u1" } :=
  generate_task_followers_spec [taskC4a] [userC10] oracleZero 0
    [{ workspace_gid := "w", task_gid := "a", user_gid := "u1" }] 3
    (by with_unfolding_all decide)
    { workspace_gid := "w", task_gid := "a", user_gid := "u1" }
    (List.mem_singleton.mpr rfl)

/-! ## Claim C8: `generate_custom_field_values` from
`generators/custom_fields.py` -/

/-- `field_by_gid = {f["gid"]: f for f in field_definitions}`: a Python dict
build keeps the last duplicate, hence the reversed `find?`. -/
def field_by_gid (defs : List FieldDef) (g : String) : Option FieldDef :=
  defs.reverse.find? (fun f => decide (f.gid = g))

/-- `options_by_field` grouping from `generate_custom_field_values`. -/
def options_by_field (opts : List FieldOption) (g : String) : List FieldOption :=
  opts.filter (fun opt => decide (opt.field_gid = g))

/-- `fields_per_project` grouping (settings of one project, in order). -/
def fields_per_project (settings : List ProjectFieldSetting) (p : String) : List String :=
  (settings.filter (fun s => decide (s.project_gid = p))).map
    (fun s => s.custom_field_gid)

/-- `task_to_project = {m["task_gid"]: m["project_gid"] ...}`: last duplicate
wins. -/
def task_to_project (tpms : List TaskProjectMembership) (tg : String) : Option String :=
  (tpms.reverse.find? (fun m => decide (m.task_gid = tg))).map
    (fun m => m.project_gid)

/-- Model of Python `"needle" in haystack` on strings. -/
def strContains (needle hay : String) : Bool :=
  (List.range (hay.data.length + 1)).any
    (fun i => needle.data.isPrefixOf (hay.data.drop i))

/-- Model of Python `round(x, 1)` (decimal rounding; the embedding rounds
half away from zero where CPython rounds half to even — the claims never
inspect the numeric value, only that the slot is populated). -/
def pyRound1 (x : ℚ) : ℚ := mkRat ⌊x * 10 + 1/2⌋ 10

/-- One iteration of the inner field loop of `generate_custom_field_values`:
`none` when the 70% fill gate or the `field_by_gid` lookup skips the field. -/
def cfv_for_field (defs : List FieldDef) (opts : List FieldOption)
    (task : TaskRec) (field_gid : String) : GenM (Option CustomFieldValue) := do
  let gate ← probability_check (70/100)
  if gate then
    match field_by_gid defs field_gid with
    | none => pure none
    | some field => do
      let base : CustomFieldValue :=
        { workspace_gid := task.workspace_gid
          task_gid := task.gid
          field_gid := field_gid
          text_value := none
          number_value := none
          enum_option_gid := none }
      if field.resource_subtype = "text" then do
        let tv ← pyChoice ["See documentation", "Needs review", "In progress",
          "Waiting for input", ""]
        pure (some { base with text_value := some tv })
      else if field.resource_subtype = "number" then do
        let nv ←
          if strContains "Points" field.name then
            pyChoice [(1 : ℚ), 2, 3, 5, 8, 13]
          else if strContains "Hours" field.name then do
            let u ← pyUniform (1/2) 40
            pure (pyRound1 u)
          else do
            let k ← pyRandint 1 100
            pure (mkRat k 1)
        pure (some { base with number_value := some nv })
      else if field.resource_subtype = "enum" then
        let field_opts := options_by_field opts field_gid
        if field_opts.isEmpty then pure (some base)
        else do
          let opt ← pyChoice field_opts
          pure (some { base with enum_option_gid := some opt.gid })
      else pure (some base)
  else pure none

/-- The inner loop over one task's attached field gids. -/
def cfv_fields_loop (defs : List FieldDef) (opts : List FieldOption)
    (task : TaskRec) : List String → List CustomFieldValue →
    GenM (List CustomFieldValue)
  | [], acc => pure acc
  | fg :: rest, acc => do
    let r ← cfv_for_field defs opts task fg
    match r with
    | some v => cfv_fields_loop defs opts task rest (acc ++ [v])
    | none => cfv_fields_loop defs opts task rest acc

/-- Values contributed by one task (the `continue` guards of the outer
loop). -/
def cfv_for_task (defs : List FieldDef) (opts : List FieldOption)
    (settings : List ProjectFieldSetting) (tpms : List TaskProjectMembership)
    (task : TaskRec) : GenM (List CustomFieldValue) :=
  match task_to_project tpms task.gid with
  | none => pure []
  | some p =>
    if p = "" then pure []
    else
      let project_fields := fields_per_project settings p
      if project_fields.isEmpty then pure []
      else cfv_fields_loop defs opts task project_fields []

/-- The outer task loop. -/
def cfv_tasks_loop (defs : List FieldDef) (opts : List FieldOption)
    (settings : List ProjectFieldSetting) (tpms : List TaskProjectMembership) :
    List TaskRec → List CustomFieldValue → GenM (List CustomFieldValue)
  | [], acc => pure acc
  | task :: rest, acc => do
    let vs ← cfv_for_task defs opts settings tpms task
    cfv_tasks_loop defs opts settings tpms rest (acc ++ vs)

/-- `generate_custom_field_values(tasks, project_field_settings,
task_project_memberships, field_definitions, field_options)` from
`generators/custom_fields.py`. -/
def generate_custom_field_values (tasks : List TaskRec)
    (project_field_settings : List ProjectFieldSetting)
    (task_project_memberships : List TaskProjectMembership)
    (field_definitions : List FieldDef) (field_options : List FieldOption) :
    GenM (List CustomFieldValue) :=
  cfv_tasks_loop field_definitions field_options project_field_settings
    task_project_memberships tasks []

/-- The property C8 asserts of one produced value record, relative to the
inputs: exactly the slot of the defining field's declared type is populated,
an enum option belongs to the same field, and the field is attached to the
task's project by a settings row. -/
def CfvOk (settings : List ProjectFieldSetting) (tpms : List TaskProjectMembership)
    (defs : List FieldDef) (opts : List FieldOption) (v : CustomFieldValue) : Prop :=
  (∃ fd, field_by_gid defs v.field_gid = some fd ∧
    ((fd.resource_subtype = "text" ∧ v.text_value.isSome ∧
        v.number_value = none ∧ v.enum_option_gid = none) ∨
     (fd.resource_subtype = "number" ∧ v.number_value.isSome ∧
        v.text_value = none ∧ v.enum_option_gid = none) ∨
     (fd.resource_subtype = "enum" ∧ v.text_value = none ∧ v.number_value = none ∧
        ∃ opt ∈ opts, opt.field_gid = v.field_gid ∧ v.enum_option_gid = some opt.gid))) ∧
  (∃ s ∈ settings, s.custom_field_gid = v.field_gid ∧
    task_to_project tpms v.task_gid = some s.project_gid)

theorem field_by_gid_mem {defs : List FieldDef} {g : String} {fd : FieldDef}
    (h : field_by_gid defs g = some fd) : fd ∈ defs ∧ fd.gid = g := by
  unfold field_by_gid at h
  have hmem := List.mem_of_find?_eq_some h
  have hpred := List.find?_some h
  simp only [decide_eq_true_eq] at hpred
  exact ⟨List.mem_reverse.mp hmem, hpred⟩

theorem cfv_for_field_spec (defs : List FieldDef) (opts : List FieldOption)
    (task : TaskRec) (fg : String) (o : Oracle) (n : Nat)
    (r : Option CustomFieldValue) (n' : Nat)
    (H1 : ∀ fd ∈ defs, fd.resource_subtype = "text" ∨
      fd.resource_subtype = "number" ∨ fd.resource_subtype = "enum")
    (H2 : ∀ fd ∈ defs, fd.resource_subtype = "enum" →
      (options_by_field opts fd.gid).isEmpty = false)
    (h : cfv_for_field defs opts task fg o n = .ok (r, n')) :
    ∀ v, r = some v →
      v.task_gid = task.gid ∧ v.field_gid = fg ∧
      (∃ fd, field_by_gid defs v.field_gid = some fd ∧
        ((fd.resource_subtype = "text" ∧ v.text_value.isSome ∧
            v.number_value = none ∧ v.enum_option_gid = none) ∨
         (fd.resource_subtype = "number" ∧ v.number_value.isSome ∧
            v.text_value = none ∧ v.enum_option_gid = none) ∨
         (fd.resource_subtype = "enum" ∧ v.text_value = none ∧
            v.number_value = none ∧
            ∃ opt ∈ opts, opt.field_gid = v.field_gid ∧
              v.enum_option_gid = some opt.gid))) := by
  intro v hv
  simp only [cfv_for_field, GenM.bind_def, probability_check] at h
  split at h
  · cases hfind : field_by_gid defs fg with
    | none =>
      simp only [hfind, GenM.pure_def, Except.ok.injEq, Prod.mk.injEq] at h
      rw [← h.1] at hv
      simp at hv
    | some field =>
      simp only [hfind] at h
      have hmem := field_by_gid_mem hfind
      split at h
      · rename_i htext
        rw [GenM.bind_def] at h
        cases hc : pyChoice ["See documentation", "Needs review", "In progress",
            "Waiting for input", ""] o (n + 1) with
        | error e =>
          simp only [hc] at h
          exact absurd h (by simp)
        | ok ptv =>
          obtain ⟨tv, n2⟩ := ptv
          simp only [hc, GenM.pure_def, Except.ok.injEq, Prod.mk.injEq] at h
          rw [← h.1] at hv
          cases hv
          refine ⟨rfl, rfl, field, hfind, Or.inl ⟨htext, ?_, rfl, rfl⟩⟩
          simp
      · split at h
        · rename_i hnotext hnum
          split at h
          · rw [GenM.bind_def] at h
            cases hc2 : pyChoice [(1 : ℚ), 2, 3, 5, 8, 13] o (n + 1) with
            | error e =>
              simp only [hc2] at h
              exact absurd h (by simp)
            | ok pnv =>
              obtain ⟨nv, n2⟩ := pnv
              simp only [hc2, GenM.pure_def, Except.ok.injEq, Prod.mk.injEq] at h
              rw [← h.1] at hv
              cases hv
              refine ⟨rfl, rfl, field, hfind, Or.inr (Or.inl ⟨hnum, ?_, rfl, rfl⟩)⟩
              simp
          · split at h
            · simp only [GenM.bind_def, pyUniform, GenM.pure_def, Except.ok.injEq,
                Prod.mk.injEq] at h
              rw [← h.1] at hv
              cases hv
              refine ⟨rfl, rfl, field, hfind, Or.inr (Or.inl ⟨hnum, ?_, rfl, rfl⟩)⟩
              simp
            · rw [GenM.bind_def] at h
              cases hk : pyRandint 1 100 o (n + 1) with
              | error e =>
                simp only [pyRandint] at hk
                exact absurd hk (by simp)
              | ok pk =>
                obtain ⟨k, n2⟩ := pk
                simp only [hk, GenM.bind_def, GenM.pure_def, Except.ok.injEq,
                  Prod.mk.injEq] at h
                rw [← h.1] at hv
                cases hv
                refine ⟨rfl, rfl, field, hfind, Or.inr (Or.inl ⟨hnum, ?_, rfl, rfl⟩)⟩
                simp
        · split at h
          · rename_i hnotext hnonum henum
            split at h
            · rename_i hempty
              exfalso
              have hfalse := H2 field hmem.1 henum
              rw [hmem.2] at hfalse
              rw [hempty] at hfalse
              exact absurd hfalse (by decide)
            · rw [GenM.bind_def] at h
              cases hopt : pyChoice (options_by_field opts fg) o (n + 1) with
              | error e =>
                simp only [hopt] at h
                exact absurd h (by simp)
              | ok popt =>
                obtain ⟨opt, n2⟩ := popt
                simp only [hopt, GenM.pure_def, Except.ok.injEq, Prod.mk.injEq] at h
                rw [← h.1] at hv
                cases hv
                have hoptmem := (pyChoice_mem hopt).1
                simp only [options_by_field, List.mem_filter,
                  decide_eq_true_eq] at hoptmem
                exact ⟨rfl, rfl, field, hfind,
                  Or.inr (Or.inr ⟨henum, rfl, rfl, opt, hoptmem.1, hoptmem.2, rfl⟩)⟩
          · rename_i hnotext hnonum hnoenum
            exfalso
            rcases H1 field hmem.1 with hh | hh | hh
            · exact hnotext hh
            · exact hnonum hh
            · exact hnoenum hh
  · simp only [GenM.pure_def, Except.ok.injEq, Prod.mk.injEq] at h
    rw [← h.1] at hv
    simp at hv

theorem cfv_fields_loop_spec (defs : List FieldDef) (opts : List FieldOption)
    (settings : List ProjectFieldSetting) (tpms : List TaskProjectMembership)
    (task : TaskRec) (p : String)
    (H1 : ∀ fd ∈ defs, fd.resource_subtype = "text" ∨
      fd.resource_subtype = "number" ∨ fd.resource_subtype = "enum")
    (H2 : ∀ fd ∈ defs, fd.resource_subtype = "enum" →
      (options_by_field opts fd.gid).isEmpty = false)
    (Hp : task_to_project tpms task.gid = some p) :
    ∀ (fgs : List String) (acc : List CustomFieldValue) (o : Oracle) (n : Nat)
      (out : List CustomFieldValue) (n' : Nat),
      (∀ fg ∈ fgs, ∃ s ∈ settings, s.project_gid = p ∧ s.custom_field_gid = fg) →
      (∀ v ∈ acc, CfvOk settings tpms defs opts v) →
      cfv_fields_loop defs opts task fgs acc o n = .ok (out, n') →
      ∀ v ∈ out, CfvOk settings tpms defs opts v := by
  intro fgs
  induction fgs with
  | nil =>
    intro acc o n out n' _ hacc h
    simp only [cfv_fields_loop, GenM.pure_def, Except.ok.injEq, Prod.mk.injEq] at h
    rw [← h.1]
    exact hacc
  | cons fg rest ih =>
    intro acc o n out n' hfgs hacc h
    simp only [cfv_fields_loop, GenM.bind_def] at h
    cases hf : cfv_for_field defs opts task fg o n with
    | error e =>
      simp only [hf] at h
      exact absurd h (by simp)
    | ok pr =>
      obtain ⟨r, n2⟩ := pr
      simp only [hf] at h
      cases r with
      | none =>
        exact ih acc o n2 out n'
          (fun g hg => hfgs g (List.mem_cons_of_mem _ hg)) hacc h
      | some v =>
        apply ih (acc ++ [v]) o n2 out n'
          (fun g hg => hfgs g (List.mem_cons_of_mem _ hg)) ?_ h
        intro w hw
        rcases List.mem_append.mp hw with hw | hw
        · exact hacc w hw
        · simp only [List.mem_singleton] at hw
          subst hw
          have hvspec := cfv_for_field_spec defs opts task fg o n (some w) n2 H1 H2 hf w rfl
          obtain ⟨htask, hfield, hslot⟩ := hvspec
          refine ⟨hslot, ?_⟩
          obtain ⟨s, hs, hsp, hsf⟩ := hfgs fg (List.mem_cons_self fg rest)
          refine ⟨s, hs, by rw [hsf, hfield], ?_⟩
          rw [htask, Hp, hsp]

theorem cfv_for_task_spec (defs : List FieldDef) (opts : List FieldOption)
    (settings : List ProjectFieldSetting) (tpms : List TaskProjectMembership)
    (task : TaskRec) (o : Oracle) (n : Nat) (out : List CustomFieldValue) (n' : Nat)
    (H1 : ∀ fd ∈ defs, fd.resource_subtype = "text" ∨
      fd.resource_subtype = "number" ∨ fd.resource_subtype = "enum")
    (H2 : ∀ fd ∈ defs, fd.resource_subtype = "enum" →
      (options_by_field opts fd.gid).isEmpty = false)
    (h : cfv_for_task defs opts settings tpms task o n = .ok (out, n')) :
    ∀ v ∈ out, CfvOk settings tpms defs opts v := by
  unfold cfv_for_task at h
  cases hp : task_to_project tpms task.gid with
  | none =>
    simp only [hp, GenM.pure_def, Except.ok.injEq, Prod.mk.injEq] at h
    rw [← h.1]
    simp
  | some p =>
    simp only [hp] at h
    split at h
    · simp only [GenM.pure_def, Except.ok.injEq, Prod.mk.injEq] at h
      rw [← h.1]
      simp
    · split at h
      · simp only [GenM.pure_def, Except.ok.injEq, Prod.mk.injEq] at h
        rw [← h.1]
        simp
      · apply cfv_fields_loop_spec defs opts settings tpms task p H1 H2 hp
          (fields_per_project settings p) [] o n out n' ?_ (by simp) h
        intro fg hfg
        simp only [fields_per_project, List.mem_map, List.mem_filter,
          decide_eq_true_eq] at hfg
        obtain ⟨s, ⟨hs, hsp⟩, hsf⟩ := hfg
        exact ⟨s, hs, hsp, hsf⟩

theorem cfv_tasks_loop_spec (defs : List FieldDef) (opts : List FieldOption)
    (settings : List ProjectFieldSetting) (tpms : List TaskProjectMembership)
    (H1 : ∀ fd ∈ defs, fd.resource_subtype = "text" ∨
      fd.resource_subtype = "number" ∨ fd.resource_subtype = "enum")
    (H2 : ∀ fd ∈ defs, fd.resource_subtype = "enum" →
      (options_by_field opts fd.gid).isEmpty = false) :
    ∀ (tasks : List TaskRec) (acc : List CustomFieldValue) (o : Oracle) (n : Nat)
      (out : List CustomFieldValue) (n' : Nat),
      (∀ v ∈ acc, CfvOk settings tpms defs opts v) →
      cfv_tasks_loop defs opts settings tpms tasks acc o n = .ok (out, n') →
      ∀ v ∈ out, CfvOk settings tpms defs opts v := by
  intro tasks
  induction tasks with
  | nil =>
    intro acc o n out n' hacc h
    simp only [cfv_tasks_loop, GenM.pure_def, Except.ok.injEq, Prod.mk.injEq] at h
    rw [← h.1]
    exact hacc
  | cons task rest ih =>
    intro acc o n out n' hacc h
    simp only [cfv_tasks_loop, GenM.bind_def] at h
    cases ht : cfv_for_task defs opts settings tpms task o n with
    | error e =>
      simp only [ht] at h
      exact absurd h (by simp)
    | ok pvs =>
      obtain ⟨vs, n2⟩ := pvs
      simp only [ht] at h
      apply ih (acc ++ vs) o n2 out n' ?_ h
      intro v hv
      rcases List.mem_append.mp hv with hv | hv
      · exact hacc v hv
      · exact cfv_for_task_spec defs opts settings tpms task o n vs n2 H1 H2 ht v hv

/-- C8: every record produced by `generate_custom_field_values` populates
exactly the value slot matching its field definition's declared type, any
`enum_option_gid` names an option of that same field, and the record's
`field_gid` is attached to the task's project via a
`project_custom_field_settings` row.  The hypotheses — every definition's
subtype is one of `text`/`number`/`enum` and every enum definition has at
least one option — hold for everything `generate_custom_field_definitions`
builds from `CUSTOM_FIELD_TEMPLATES`. -/
theorem generate_custom_field_values_spec (tasks : List TaskRec)
    (settings : List ProjectFieldSetting) (tpms : List TaskProjectMembership)
    (defs : List FieldDef) (opts : List FieldOption) (o : Oracle) (n : Nat)
    (values : List CustomFieldValue) (n' : Nat)
    (H1 : ∀ fd ∈ defs, fd.resource_subtype = "text" ∨
      fd.resource_subtype = "number" ∨ fd.resource_subtype = "enum")
    (H2 : ∀ fd ∈ defs, fd.resource_subtype = "enum" →
      (options_by_field opts fd.gid).isEmpty = false)
    (h : generate_custom_field_values tasks settings tpms defs opts o n
      = .ok (values, n')) :
    ∀ v ∈ values, CfvOk settings tpms defs opts v := by
  unfold generate_custom_field_values at h
  exact cfv_tasks_loop_spec defs opts settings tpms H1 H2 tasks [] o n values n'
    (by simp) h

/-- C8 witness: the theorem instantiated on a one-task run with one enum
field attached to the task's project. -/
theorem generate_custom_field_values_spec_witness :
    CfvOk [{ workspace_gid := "w", project_gid := "p1", custom_field_gid := "f1",
             is_important := 1 }]
      [{ workspace_gid := "w", task_gid := "a", project_gid := "p1",
         section_gid := none }]
      [{ gid := "f1", workspace_gid := "w", name := "Priority",
         resource_subtype := "enum" }]
      [{ gid := "o1", field_gid := "f1", workspace_gid := "w", name := "P0",
         color := "red" }]
      { workspace_gid := "w", task_gid := "a", field_gid := "f1",
        text_value := none, number_value := none,
        enum_option_gid := some "o1" } :=
  generate_custom_field_values_spec [taskC4a]
    [{ workspace_gid := "w", project_gid := "p1", custom_field_gid := "f1",
       is_important := 1 }]
    [{ workspace_gid := "w", task_gid := "a", project_gid := "p1",
       section_gid := none }]
    [{ gid := "f1", workspace_gid := "w", name := "Priority",
       resource_subtype := "enum" }]
    [{ gid := "o1", field_gid := "f1", workspace_gid := "w", name := "P0",
       color := "red" }]
    oracleZero 0
    [{ workspace_gid := "w", task_gid := "a", field_gid := "f1",
       text_value := none, number_value := none, enum_option_gid := some "o1" }] 2
    (by decide) (by decide) (by with_unfolding_all decide)
    { workspace_gid := "w", task_gid := "a", field_gid := "f1",
      text_value := none, number_value := none, enum_option_gid := some "o1" }
    (List.mem_singleton.mpr rfl)

/-! ## Claim C6: `generate_users` from `generators/users.py` -/

/-- `FIRST_NAMES_MALE` from `scrapers/data_sources.py`. -/
def FIRST_NAMES_MALE : List String :=
  ["James", "Michael", "Robert", "David", "William", "John", "Richard", "Joseph",
   "Thomas", "Christopher", "Charles", "Daniel", "Matthew", "Anthony", "Mark",
   "Steven", "Paul", "Andrew", "Joshua", "Kenneth", "Kevin", "Brian", "George",
   "Timothy", "Ronald", "Edward", "Jason", "Jeffrey", "Ryan", "Jacob", "Gary",
   "Nicholas", "Eric", "Jonathan", "Stephen", "Larry", "Justin", "Scott", "Brandon",
   "Benjamin", "Samuel", "Raymond", "Gregory", "Frank", "Alexander", "Patrick",
   "Jack", "Dennis", "Jerry", "Tyler", "Aaron", "Jose", "Adam", "Nathan", "Henry",
   "Zachary", "Douglas", "Peter", "Kyle", "Noah", "Ethan", "Jeremy", "Walter",
   "Christian", "Keith", "Roger", "Terry", "Austin", "Sean", "Gerald", "Carl",
   "Dylan", "Harold", "Jordan", "Jesse", "Bryan", "Lawrence", "Arthur", "Gabriel"]

/-- `FIRST_NAMES_FEMALE` from `scrapers/data_sources.py`. -/
def FIRST_NAMES_FEMALE : List String :=
  ["Mary", "Patricia", "Jennifer", "Linda", "Elizabeth", "Barbara", "Susan",
   "Jessica", "Sarah", "Karen", "Lisa", "Nancy", "Betty", "Margaret", "Sandra",
   "Ashley", "Kimberly", "Emily", "Donna", "Michelle", "Dorothy", "Carol",
   "Amanda", "Melissa", "Deborah", "Stephanie", "Rebecca", "Sharon", "Laura",
   "Cynthia", "Kathleen", "Amy", "Angela", "Shirley", "Anna", "Brenda", "Pamela",
   "Emma", "Nicole", "Helen", "Samantha", "Katherine", "Christine", "Debra",
   "Rachel", "Carolyn", "Janet", "Catherine", "Maria", "Heather", "Diane",
   "Ruth", "Julie", "Olivia", "Joyce", "Virginia", "Victoria", "Kelly", "Lauren",
   "Christina", "Joan", "Evelyn", "Judith", "Megan", "Andrea", "Cheryl", "Hannah",
   "Jacqueline", "Martha", "Gloria", "Teresa", "Ann", "Sara", "Madison", "Frances",
   "Kathryn", "Janice", "Jean", "Abigail", "Alice", "Judy", "Sophia", "Grace"]

/-- `LAST_NAMES` from `scrapers/data_sources.py`. -/
def LAST_NAMES : List String :=
  ["Smith", "Johnson", "Williams", "Brown", "Jones", "Garcia", "Miller", "Davis",
   "Rodriguez", "Martinez", "Hernandez", "Lopez", "Gonzalez", "Wilson", "Anderson",
   "Thomas", "Taylor", "Moore", "Jackson", "Martin", "Lee", "Perez", "Thompson",
   "White", "Harris", "Sanchez", "Clark", "Ramirez", "Lewis", "Robinson", "Walker",
   "Young", "Allen", "King", "Wright", "Scott", "Torres", "Nguyen", "Hill", "Flores",
   "Green", "Adams", "Nelson", "Baker", "Hall", "Rivera", "Campbell", "Mitchell",
   "Carter", "Roberts", "Gomez", "Phillips", "Evans", "Turner", "Diaz", "Parker",
   "Cruz", "Edwards", "Collins", "Reyes", "Stewart", "Morris", "Morales", "Murphy",
   "Cook", "Rogers", "Gutierrez", "Ortiz", "Morgan", "Cooper", "Peterson", "Bailey",
   "Reed", "Kelly", "Howard", "Ramos", "Kim", "Cox", "Ward", "Richardson", "Watson",
   "Brooks", "Chavez", "Wood", "James", "Bennett", "Gray", "Mendoza", "Ruiz", "Hughes"]

/-- `get_random_full_name` from `scrapers/data_sources.py`: 50/50 gender
split, then a uniform choice from the respective list. -/
def get_random_full_name : GenM (String × String) := do
  let g ← pyRandom
  let first_name ←
    if g < 1/2 then pyChoice FIRST_NAMES_MALE
    else pyChoice FIRST_NAMES_FEMALE
  let last_name ← pyChoice LAST_NAMES
  pure (first_name, last_name)

/-- The plain derived email
`f"{first_name.lower()}.{last_name.lower()}@{domain}"` (arguments already
lowered). -/
def emailP (f l d : String) : String := f ++ "." ++ l ++ "@" ++ d

/-- The suffixed email
`f"{first_name.lower()}.{last_name.lower()}{suffix + 1}@{domain}"`
(arguments already lowered). -/
def emailS (f l : String) (k : Nat) (d : String) : String :=
  f ++ "." ++ l ++ String.mk (pyStr k) ++ "@" ++ d

/-- Model of Python `e.startswith(p)`. -/
def pyStartswith (e p : String) : Bool := p.data.isPrefixOf e.data

/-- `len([e for e in used_emails if e.startswith(prefix)])`: `used_emails` is
a set, modelled by a duplicate-free list. -/
def cnt (used : List String) (p : String) : Nat :=
  (used.filter (fun e => pyStartswith e p)).length

/-- The `for _ in range(max_attempts)` name/email loop of `generate_users`.
Carries the last drawn `(first, last, email)` so that loop exhaustion keeps
the final (still colliding) email exactly as the source does; returns the
names, the chosen email, and the updated `used_emails`. -/
def pick_email (domain : String) :
    Nat → (String × String × String) → List String →
    GenM (String × String × String × List String)
  | 0, last, used => pure (last.1, last.2.1, last.2.2, used)
  | fuel + 1, _, used => do
    let fl ← get_random_full_name
    let email := emailP (pyLower fl.1) (pyLower fl.2) domain
    if email ∈ used then
      let suffix := cnt used (pyLower fl.1 ++ "." ++ pyLower fl.2)
      let email2 := emailS (pyLower fl.1) (pyLower fl.2) (suffix + 1) domain
      if email2 ∈ used then
        pick_email domain fuel (fl.1, fl.2, email2) used
      else pure (fl.1, fl.2, email2, email2 :: used)
    else pure (fl.1, fl.2, email, email :: used)

/-- The per-user loop of `generate_users`: remaining count, current index,
accumulated `used_emails`.  Indexing `workspaces[i % len(workspaces)]` raises
`ZeroDivisionError` on an empty workspace list, and `creation_times[i]`
raises `IndexError` out of range, as in Python. -/
def users_loop (numUsers : Nat) (workspaces : List Workspace)
    (creation_times : List DT) :
    Nat → Nat → List String → GenM (List User × List WorkspaceMembership)
  | 0, _, _ => pure ([], [])
  | k + 1, i, used => do
    match workspaces with
    | [] => GenM.throw .zeroDivision
    | w0 :: wrest => do
      let workspace := (w0 :: wrest).get
        ⟨i % (w0 :: wrest).length, Nat.mod_lt _ (by simp)⟩
      let (first_name, last_name, email, used') ← pick_email workspace.domain 10
        ("", "", "") used
      let full_name := first_name ++ " " ++ last_name
      let status ← weighted_choice_dict USER_STATUS_WEIGHTS
      let user_gid ← generate_gid
      match creation_times.get? i with
      | none => GenM.throw .indexError
      | some created => do
        let user : User :=
          { gid := user_gid
            workspace_gid := workspace.gid
            email := email
            name := full_name
            photo_url := "https://ui-avatars.com/api/?name=" ++ first_name ++ "+"
              ++ last_name ++ "&size=128"
            status := status
            created_at := format_timestamp created }
        let is_guest : Nat :=
          if (i : Int) < ⌊(numUsers : ℚ) * guestRatio⌋ then 1 else 0
        let membership : WorkspaceMembership :=
          { workspace_gid := workspace.gid
            user_gid := user_gid
            is_guest := is_guest
            created_at := format_timestamp created }
        let (restU, restM) ← users_loop numUsers workspaces creation_times k (i + 1) used'
        pure (user :: restU, membership :: restM)

/-- `generate_users(workspaces)` from `generators/users.py`, with
`VOLUMES["users"]` injected. -/
def generate_users (numUsers : Nat) (workspaces : List Workspace) :
    GenM (List User × List WorkspaceMembership) := do
  let creation_times ← generate_creation_wave numUsers HISTORY_START HISTORY_END
    "s_curve"
  users_loop numUsers workspaces creation_times numUsers 0 []

/-- All characters alphabetic, and non-empty (every name in the tables,
lowered, satisfies this). -/
def AllAlpha (s : String) : Prop := s.data ≠ [] ∧ ∀ c ∈ s.data, c.isAlpha = true

instance (s : String) : Decidable (AllAlpha s) := by
  unfold AllAlpha
  infer_instance

/-- No `'@'` character (every workspace domain satisfies this). -/
def NoAt (s : String) : Prop := ∀ c ∈ s.data, c ≠ '@'

instance (s : String) : Decidable (NoAt s) := by
  unfold NoAt
  infer_instance

theorem str_data_append (s t : String) : (s ++ t).data = s.data ++ t.data := by
  cases s
  cases t
  rfl

theorem str_ext {s t : String} (h : s.data = t.data) : s = t := by
  cases s
  cases t
  exact congrArg String.mk h

/-- The character data of a suffixed email, right-associated. -/
theorem emailS_data (f l : String) (k : Nat) (d : String) :
    (emailS f l k d).data
      = (f.data ++ '.' :: (l.data ++ pyStr k)) ++ '@' :: d.data := by
  simp only [emailS, str_data_append]
  simp [String.data]

/-- The character data of a plain email, right-associated. -/
theorem emailP_data (f l d : String) :
    (emailP f l d).data = (f.data ++ '.' :: l.data) ++ '@' :: d.data := by
  simp only [emailP, str_data_append]
  simp [String.data]

theorem at_notin_local {f l : String} {rest : List Char} (hf : AllAlpha f)
    (hl : AllAlpha l) (hrest : ∀ c ∈ rest, c.isDigit = true) :
    '@' ∉ f.data ++ '.' :: (l.data ++ rest) := by
  intro hmem
  rcases List.mem_append.mp hmem with hmem | hmem
  · exact alpha_ne_at (hf.2 _ hmem) rfl
  · rcases List.mem_cons.mp hmem with hmem | hmem
    · exact absurd hmem.symm (by decide)
    · rcases List.mem_append.mp hmem with hmem | hmem
      · exact alpha_ne_at (hl.2 _ hmem) rfl
      · exact digit_ne_at (hrest _ hmem) rfl

theorem at_notin_plain_local {f l : String} (hf : AllAlpha f) (hl : AllAlpha l) :
    '@' ∉ f.data ++ '.' :: l.data := by
  intro hmem
  rcases List.mem_append.mp hmem with hmem | hmem
  · exact alpha_ne_at (hf.2 _ hmem) rfl
  · rcases List.mem_cons.mp hmem with hmem | hmem
    · exact absurd hmem.symm (by decide)
    · exact alpha_ne_at (hl.2 _ hmem) rfl

/-- A suffixed email determines its four components, given alphabetic names
and `'@'`-free domains. -/
theorem emailS_inj {f l d f' l' d' : String} {k k' : Nat}
    (hf : AllAlpha f) (hl : AllAlpha l) (hd : NoAt d)
    (hf' : AllAlpha f') (hl' : AllAlpha l') (hd' : NoAt d')
    (h : emailS f l k d = emailS f' l' k' d') :
    f = f' ∧ l = l' ∧ k = k' ∧ d = d' := by
  have hdata : (emailS f l k d).data = (emailS f' l' k' d').data := by rw [h]
  rw [emailS_data, emailS_data] at hdata
  have hsplit := split_at_sep_unique hdata
    (at_notin_local hf hl (pyStr_all_digit k))
    (at_notin_local hf' hl' (pyStr_all_digit k'))
  have hlocal := hsplit.1
  have hdom : d = d' := str_ext hsplit.2
  have hsplit2 := @split_at_sep_unique '.' _ _ _ _ hlocal
    (fun hc => alpha_ne_dot (hf.2 _ hc) rfl)
    (fun hc => alpha_ne_dot (hf'.2 _ hc) rfl)
  have hfe : f = f' := str_ext hsplit2.1
  have hsplit3 := alpha_digit_split_unique hsplit2.2 hl.2 hl'.2
    (pyStr_all_digit k) (pyStr_all_digit k')
  have hle : l = l' := str_ext hsplit3.1
  have hke : k = k' := by
    apply pyStr_injective
    have := hsplit3.2
    exact this
  exact ⟨hfe, hle, hke, hdom⟩

/-- A suffixed email is never equal to a plain email, given alphabetic names
and `'@'`-free domains. -/
theorem emailS_ne_emailP {f l d f' l' d' : String} {k : Nat}
    (hf : AllAlpha f) (hl : AllAlpha l) (hd : NoAt d)
    (hf' : AllAlpha f') (hl' : AllAlpha l') (hd' : NoAt d') :
    emailS f l k d ≠ emailP f' l' d' := by
  intro h
  have hdata : (emailS f l k d).data = (emailP f' l' d').data := by rw [h]
  rw [emailS_data, emailP_data] at hdata
  have hsplit := split_at_sep_unique hdata
    (at_notin_local hf hl (pyStr_all_digit k))
    (at_notin_plain_local hf' hl')
  have hsplit2 := @split_at_sep_unique '.' _ _ _ _ hsplit.1
    (fun hc => alpha_ne_dot (hf.2 _ hc) rfl)
    (fun hc => alpha_ne_dot (hf'.2 _ hc) rfl)
  have h2 : l.data ++ pyStr k = l'.data ++ ([] : List Char) := by
    simpa using hsplit2.2
  have hsplit3 := alpha_digit_split_unique h2 hl.2 hl'.2
    (pyStr_all_digit k) (by intro x hx; simp at hx)
  exact pyStr_ne_nil k hsplit3.2

theorem isPrefixOf_append_self (l t : List Char) : l.isPrefixOf (l ++ t) = true := by
  induction l with
  | nil => simp [List.isPrefixOf]
  | cons c cs ih => simp [List.isPrefixOf, ih]

/-- A suffixed email starts with its name prefix. -/
theorem emailS_startswith (f l : String) (k : Nat) (d : String) :
    pyStartswith (emailS f l k d) (f ++ "." ++ l) = true := by
  unfold pyStartswith
  have hp : (f ++ "." ++ l).data = f.data ++ '.' :: l.data := by
    simp only [str_data_append]
    simp [String.data]
  have he : (emailS f l k d).data
      = (f.data ++ '.' :: l.data) ++ (pyStr k ++ '@' :: d.data) := by
    rw [emailS_data]
    simp [List.append_assoc]
  rw [hp, he]
  exact isPrefixOf_append_self _ _

theorem cnt_cons (e : String) (used : List String) (p : String) :
    cnt (e :: used) p = (if pyStartswith e p then 1 else 0) + cnt used p := by
  unfold cnt
  rw [List.filter_cons]
  split
  · simp only [List.length_cons]
    omega
  · omega

theorem cnt_cons_le (e : String) (used : List String) (p : String) :
    cnt used p ≤ cnt (e :: used) p := by
  rw [cnt_cons]
  omega

/-- Loop invariant of `used_emails`: any well-formed suffixed email that is
already a member has a suffix bounded by the current `startswith` count of
its name prefix. -/
def EmailInv (used : List String) : Prop :=
  ∀ f l d k, AllAlpha f → AllAlpha l → NoAt d → 1 ≤ k →
    emailS f l k d ∈ used → k ≤ cnt used (f ++ "." ++ l)

theorem emailInv_nil : EmailInv [] := by
  intro f l d k _ _ _ _ hmem
  simp at hmem

/-- Freshness: the suffixed email the source builds from the current count is
never already a member. -/
theorem emailInv_fresh {used : List String} (hinv : EmailInv used)
    {f l d : String} (hf : AllAlpha f) (hl : AllAlpha l) (hd : NoAt d) :
    emailS f l (cnt used (f ++ "." ++ l) + 1) d ∉ used := by
  intro hmem
  have := hinv f l d (cnt used (f ++ "." ++ l) + 1) hf hl hd (by omega) hmem
  omega

/-- Adding a fresh plain email preserves the invariant. -/
theorem emailInv_cons_plain {used : List String} (hinv : EmailInv used)
    {f l d : String} (hf : AllAlpha f) (hl : AllAlpha l) (hd : NoAt d) :
    EmailInv (emailP f l d :: used) := by
  intro f' l' d' k' hf' hl' hd' hk hmem
  rcases List.mem_cons.mp hmem with hmem | hmem
  · exact absurd hmem (emailS_ne_emailP hf' hl' hd' hf hl hd)
  · exact le_trans (hinv f' l' d' k' hf' hl' hd' hk hmem) (cnt_cons_le _ _ _)

/-- Adding the freshly suffixed email preserves the invariant. -/
theorem emailInv_cons_suffixed {used : List String} (hinv : EmailInv used)
    {f l d : String} (hf : AllAlpha f) (hl : AllAlpha l) (hd : NoAt d) :
    EmailInv (emailS f l (cnt used (f ++ "." ++ l) + 1) d :: used) := by
  intro f' l' d' k' hf' hl' hd' hk hmem
  rcases List.mem_cons.mp hmem with hmem | hmem
  · obtain ⟨hfe, hle, hke, hde⟩ := emailS_inj hf' hl' hd' hf hl hd hmem
    subst hfe
    subst hle
    subst hde
    rw [hke, cnt_cons]
    rw [emailS_startswith]
    simp only [if_true]
    omega
  · have h1 := hinv f' l' d' k' hf' hl' hd' hk hmem
    exact le_trans h1 (cnt_cons_le _ _ _)

/-- Every male first name in the table lowers to a non-empty all-alphabetic
string. -/
theorem male_names_alpha : ∀ s ∈ FIRST_NAMES_MALE, AllAlpha (pyLower s) := by
  decide

theorem female_names_alpha : ∀ s ∈ FIRST_NAMES_FEMALE, AllAlpha (pyLower s) := by
  decide

theorem last_names_alpha : ∀ s ∈ LAST_NAMES, AllAlpha (pyLower s) := by
  decide

theorem get_random_full_name_mem (o : Oracle) (n : Nat) (r : String × String)
    (n' : Nat) (h : get_random_full_name o n = .ok (r, n')) :
    (r.1 ∈ FIRST_NAMES_MALE ∨ r.1 ∈ FIRST_NAMES_FEMALE) ∧ r.2 ∈ LAST_NAMES := by
  simp only [get_random_full_name, GenM.bind_def, pyRandom] at h
  split at h
  · simp only [GenM.bind_def] at h
    cases hcf : pyChoice FIRST_NAMES_MALE o (n + 1) with
    | error e =>
      simp only [hcf] at h
      exact absurd h (by simp)
    | ok pf =>
      obtain ⟨f, n2⟩ := pf
      simp only [hcf, GenM.bind_def] at h
      cases hcl : pyChoice LAST_NAMES o n2 with
      | error e =>
        simp only [hcl] at h
        exact absurd h (by simp)
      | ok pl =>
        obtain ⟨l, n3⟩ := pl
        simp only [hcl, GenM.pure_def, Except.ok.injEq, Prod.mk.injEq] at h
        rw [← h.1]
        exact ⟨Or.inl (pyChoice_mem hcf).1, (pyChoice_mem hcl).1⟩
  · simp only [GenM.bind_def] at h
    cases hcf : pyChoice FIRST_NAMES_FEMALE o (n + 1) with
    | error e =>
      simp only [hcf] at h
      exact absurd h (by simp)
    | ok pf =>
      obtain ⟨f, n2⟩ := pf
      simp only [hcf, GenM.bind_def] at h
      cases hcl : pyChoice LAST_NAMES o n2 with
      | error e =>
        simp only [hcl] at h
        exact absurd h (by simp)
      | ok pl =>
        obtain ⟨l, n3⟩ := pl
        simp only [hcl, GenM.pure_def, Except.ok.injEq, Prod.mk.injEq] at h
        rw [← h.1]
        exact ⟨Or.inr (pyChoice_mem hcf).1, (pyChoice_mem hcl).1⟩

theorem pick_email_spec (domain : String) (hdom : NoAt domain) (fuel : Nat)
    (last : String × String × String) (used : List String) (o : Oracle) (n : Nat)
    (out : String × String × String × List String) (n' : Nat)
    (hinv : EmailInv used)
    (h : pick_email domain (fuel + 1) last used o n = .ok (out, n')) :
    out.2.2.2 = out.2.2.1 :: used ∧ out.2.2.1 ∉ used ∧
      EmailInv (out.2.2.1 :: used) := by
  simp only [pick_email, GenM.bind_def] at h
  cases hfl : get_random_full_name o n with
  | error e =>
    simp only [hfl] at h
    exact absurd h (by simp)
  | ok pfl =>
    obtain ⟨⟨f, l⟩, n1⟩ := pfl
    simp only [hfl] at h
    have hmem := get_random_full_name_mem o n (f, l) n1 hfl
    have haf : AllAlpha (pyLower f) := by
      rcases hmem.1 with hm | hm
      · exact male_names_alpha f hm
      · exact female_names_alpha f hm
    have hal : AllAlpha (pyLower l) := last_names_alpha l hmem.2
    split at h
    · rename_i hin
      have hfresh := emailInv_fresh hinv haf hal hdom
      rw [if_neg hfresh] at h
      simp only [GenM.pure_def, Except.ok.injEq, Prod.mk.injEq] at h
      rw [← h.1]
      exact ⟨rfl, hfresh, emailInv_cons_suffixed hinv haf hal hdom⟩
    · rename_i hnotin
      simp only [GenM.pure_def, Except.ok.injEq, Prod.mk.injEq] at h
      rw [← h.1]
      exact ⟨rfl, hnotin, emailInv_cons_plain hinv haf hal hdom⟩

theorem users_loop_spec (numUsers : Nat) (workspaces : List Workspace)
    (creation_times : List DT)
    (hdom : ∀ w ∈ workspaces, NoAt w.domain) :
    ∀ (k i : Nat) (used : List String) (o : Oracle) (n : Nat)
      (us : List User) (ms : List WorkspaceMembership) (n' : Nat),
      EmailInv used →
      users_loop numUsers workspaces creation_times k i used o n = .ok ((us, ms), n') →
      (us.map User.email).Nodup ∧ ∀ u ∈ us, u.email ∉ used := by
  intro k
  induction k with
  | zero =>
    intro i used o n us ms n' _ h
    simp only [users_loop, GenM.pure_def, Except.ok.injEq, Prod.mk.injEq] at h
    rw [← h.1.1]
    exact ⟨List.nodup_nil, by simp⟩
  | succ k ih =>
    intro i used o n us ms n' hinv h
    simp only [users_loop] at h
    cases hws : workspaces with
    | nil =>
      rw [hws] at h
      simp only [GenM.throw] at h
      exact absurd h (by simp)
    | cons w0 wrest =>
      subst hws
      simp only [GenM.bind_def] at h
      cases hpe : pick_email
          ((w0 :: wrest).get ⟨i % (w0 :: wrest).length, Nat.mod_lt _ (by simp)⟩).domain
          10 ("", "", "") used o n with
      | error e =>
        simp only [hpe] at h
        exact absurd h (by simp)
      | ok pout =>
        obtain ⟨⟨first_name, last_name, email, used'⟩, n1⟩ := pout
        simp only [hpe] at h
        have hdget : NoAt
            ((w0 :: wrest).get
              ⟨i % (w0 :: wrest).length, Nat.mod_lt _ (by simp)⟩).domain :=
          hdom _ (List.get_mem _ _ _)
        have hpick := pick_email_spec _ hdget 9 ("", "", "") used o n
          (first_name, last_name, email, used') n1 hinv hpe
        obtain ⟨hused', hfresh, hinv'⟩ := hpick
        simp only at hused' hfresh hinv'
        cases hwc : weighted_choice_dict USER_STATUS_WEIGHTS o n1 with
        | error e =>
          simp only [hwc] at h
          exact absurd h (by simp)
        | ok pst =>
          obtain ⟨status, n2⟩ := pst
          simp only [hwc, generate_gid, GenM.bind_def] at h
          cases hct : creation_times.get? i with
          | none =>
            simp only [hct, GenM.throw] at h
            exact absurd h (by simp)
          | some created =>
            simp only [hct, GenM.bind_def] at h
            cases hrec : users_loop numUsers (w0 :: wrest) creation_times k (i + 1)
                used' o (n2 + 1) with
            | error e =>
              simp only [hrec] at h
              exact absurd h (by simp)
            | ok prest =>
              obtain ⟨⟨restU, restM⟩, n3⟩ := prest
              simp only [hrec, GenM.pure_def, Except.ok.injEq, Prod.mk.injEq] at h
              obtain ⟨⟨husr, hmsr⟩, hn⟩ := h
              have hih := ih (i + 1) used' o (n2 + 1) restU restM n3 ?_ hrec
              · rw [← husr]
                constructor
                · simp only [List.map_cons, List.nodup_cons]
                  refine ⟨?_, hih.1⟩
                  intro hememail
                  simp only [List.mem_map] at hememail
                  obtain ⟨u, hu, hue⟩ := hememail
                  have := hih.2 u hu
                  rw [hused'] at this
                  exact this (hue ▸ List.mem_cons_self _ _)
                · intro u hu
                  rcases List.mem_cons.mp hu with rfl | hu
                  · exact hfresh
                  · intro habs
                    have := hih.2 u hu
                    rw [hused'] at this
                    exact this (List.mem_cons_of_mem _ habs)
              · rw [hused']
                exact hinv'

/-- C6: every pair of distinct user records produced by `generate_users` has
distinct emails, provided every workspace's domain is free of `'@'` (the
domains `generate_workspaces` builds are).  Internally: a colliding derived
email is retried with a numeric suffix computed from the `startswith` count,
and that suffixed email is always fresh, so the attempt loop never reaches
its exhaustion path. -/
theorem generate_users_emails_unique (numUsers : Nat)
    (workspaces : List Workspace) (o : Oracle) (n : Nat)
    (hdom : ∀ w ∈ workspaces, NoAt w.domain) :
    ∀ (us : List User) (ms : List WorkspaceMembership) (n' : Nat),
      generate_users numUsers workspaces o n = .ok ((us, ms), n') →
      (us.map User.email).Nodup := by
  intro us ms n' h
  simp only [generate_users, GenM.bind_def] at h
  cases hw : generate_creation_wave numUsers HISTORY_START HISTORY_END "s_curve" o n with
  | error e =>
    simp only [hw] at h
    exact absurd h (by simp)
  | ok pw =>
    obtain ⟨creation_times, n1⟩ := pw
    simp only [hw] at h
    exact (users_loop_spec numUsers workspaces creation_times hdom numUsers 0 [] o n1
      us ms n' emailInv_nil h).1

def wsC6 : Workspace :=
  { gid := "1", name := "Nexus", domain := "nexus.com", is_organization := 1,
    created_at := 0 }

def userC6 : User :=
  { gid := "0000000000000000", workspace_gid := "1",
    email := "james.smith@nexus.com", name := "James Smith",
    photo_url := "https://ui-avatars.com/api/?name=James+Smith&size=128",
    status := "active", created_at := -15516000 }

def wmC6 : WorkspaceMembership :=
  { workspace_gid := "1", user_gid := "0000000000000000", is_guest := 0,
    created_at := -15516000 }

/-! ## Claims C7 and C2: `generate_tasks` (`generators/tasks.py`) -/

/-- `get_random_task_name(archetype, category)` from
`scrapers/data_sources.py`: free-text content, one read of the oracle's text
stream (see the header). -/
def get_random_task_name (_archetype _category : String) : GenM String :=
  fun o n => .ok (o.str n, n + 1)

/-- `generate_task_description(name, archetype, desc_type)` from
`utils/llm_content.py`: free-text content, one read of the oracle's text
stream. -/
def generate_task_description (_name _archetype _desc_type : String) :
    GenM String :=
  fun o n => .ok (o.str n, n + 1)

/-- `sections_by_project.get(gid, [])`: the dict is built by appending in
input order, so the per-key list is the order-preserving filter. -/
def sections_by_project (sections : List SectionRec) (pg : String) :
    List SectionRec :=
  sections.filter (fun s => decide (s.project_gid = pg))

/-- `members_by_team.get(team_gid, [])`; a project with no team
(`team_gid = None`) looks up a key absent from the dict. -/
def members_by_team (tms : List TeamMembership) : Option String → List String
  | none => []
  | some g => (tms.filter (fun m => decide (m.team_gid = g))).map (·.user_gid)

/-- `users_by_workspace.get(workspace_gid, [])`. -/
def users_by_workspace (users : List User) (wg : String) : List String :=
  (users.filter (fun u => decide (u.workspace_gid = wg))).map (·.gid)

/-- `TASK_CONFIG["completion_rates"].get(archetype, (0.5, 0.7))`. -/
def completion_range_for (archetype : String) : ℚ × ℚ :=
  ((taskCompletionRates.find? (fun kv => decide (kv.1 = archetype))).map
    Prod.snd).getD (1/2, 7/10)

/-- `int(x)` on a non-negative float: truncation toward zero. -/
def pyInt (x : ℚ) : Int := Int.div x.num (x.den : Int)

/-- The `if created_at < proj_created` repair of `tasks.py:180-181`. -/
def base_created_at (created_raw proj_created : DT) : GenM DT := do
  if created_raw < proj_created then do
    let h ← pyRandint 1 48
    pure (proj_created + (h : ℚ) * 3600)
  else pure created_raw

/-- Assignee selection of `tasks.py:188-197`: the `probability_check` draw
always happens; the choice draws happen only on the taken branch. -/
def base_assignee (team_memberships : List TeamMembership) (users : List User)
    (team_gid : Option String) (workspace_gid : String) :
    GenM (Option String) := do
  let unassigned ← probability_check taskUnassignedRatio
  if unassigned then pure none
  else
    match members_by_team team_memberships team_gid with
    | [] =>
      match users_by_workspace users workspace_gid with
      | [] => pure none
      | u :: urest => do
        let a ← pyChoice (u :: urest)
        pure (some a)
    | m :: mrest => do
      let a ← pyChoice (m :: mrest)
      pure (some a)

/-- Completion probability of `tasks.py:231-237`. -/
def base_completion_prob (archetype : String) (created_at : DT) : GenM ℚ := do
  let range := completion_range_for archetype
  let base_completion_rate ← pyUniform range.1 range.2
  let days_old := deltaDays (NOW - created_at)
  let age_factor := min (3/2) (1 + ((days_old : ℚ) / 180) * (1/2))
  pure (min (95/100) (base_completion_rate * age_factor))

/-- `completed_at` of `tasks.py:241-244` / `tasks.py:351-354`. -/
def completion_opt (completed_b : Bool) (created : DT) : GenM (Option DT) := do
  if completed_b then do
    let c ← calculate_completion_timestamp created completionMinDays
      completionMaxDays
    pure (some c)
  else pure none

/-- Section placement of `tasks.py:247-256`: completed tasks go to the last
section, active tasks are drawn from all but the last (when more than one
exists). -/
def base_section (proj_sections : List SectionRec) (completed_b : Bool) :
    GenM (Option String) := do
  match proj_sections with
  | [] => pure none
  | s0 :: srest =>
    if completed_b then
      pure (some (((s0 :: srest).getLast (by simp)).gid))
    else do
      let active :=
        if 1 < (s0 :: srest).length then (s0 :: srest).dropLast
        else s0 :: srest
      let sec ← pyChoice active
      pure (some sec.gid)

/-- One iteration of Phase 1 of `generate_tasks` (`tasks.py:169-286`):
builds one base task, its scratch metadata (the `_`-prefixed keys), and its
task-project membership row, from the wave creation instant `created_raw`. -/
def base_task_step (projects : List ProjectRec) (sections : List SectionRec)
    (team_memberships : List TeamMembership) (users : List User)
    (created_raw : DT) :
    GenM ((TaskRec × TaskScratch) × TaskProjectMembership) := do
  let project ← pyChoice projects
  let workspace_gid := project.workspace_gid
  let archetype := project.archetype.getD "kanban"
  let team_gid := project.team_gid
  let proj_created := parse_timestamp project.created_at
  let created_at ← base_created_at created_raw proj_created
  let proj_sections := sections_by_project sections project.gid
  let assignee_gid ← base_assignee team_memberships users team_gid workspace_gid
  let category :=
    if archetype = "sprint" ∨ archetype = "bugs" then "engineering" else "general"
  let task_name ← get_random_task_name archetype category
  let desc_type ← weighted_choice_dict taskDescriptionDistribution
  let description ← generate_task_description task_name archetype desc_type
  let project_due := project.due_date.map parse_date
  let due_on ← generate_due_date created_at taskDueDateDistribution project_due
  let start_on0 ← generate_start_date due_on taskHasStartDateRatio
  let milestone_b ← probability_check taskMilestoneRatio
  let is_milestone : Nat := if milestone_b then 1 else 0
  let start_on :=
    if milestone_b ∧ start_on0.isSome ∧ due_on.isSome then due_on else start_on0
  let completion_probability ← base_completion_prob archetype created_at
  let completed_b ← probability_check completion_probability
  let completed : Nat := if completed_b then 1 else 0
  let completed_at ← completion_opt completed_b created_at
  let section_gid ← base_section proj_sections completed_b
  let gid ← generate_gid
  let task : TaskRec :=
    { gid := gid
      workspace_gid := workspace_gid
      assignee_gid := assignee_gid
      parent_task_gid := none
      name := task_name
      description := description
      created_at := format_timestamp created_at
      start_on := format_date start_on
      due_on := format_date due_on
      completed_at := completed_at.map format_timestamp
      completed := completed
      is_milestone := is_milestone }
  let scratch : TaskScratch :=
    { project_gid := project.gid
      section_gid := section_gid
      archetype := archetype
      team_gid := team_gid
      created_dt := created_at }
  let tpm : TaskProjectMembership :=
    { workspace_gid := workspace_gid
      task_gid := gid
      project_gid := project.gid
      section_gid := section_gid }
  pure ((task, scratch), tpm)

/-- Phase 1's `for i in range(num_base_tasks)` loop: the wave list has
exactly `num_base_tasks` entries, so indexing it is iteration. -/
def base_tasks_loop (projects : List ProjectRec) (sections : List SectionRec)
    (team_memberships : List TeamMembership) (users : List User) :
    List DT → GenM (List (TaskRec × TaskScratch) × List TaskProjectMembership)
  | [] => pure ([], [])
  | c :: cs => do
    let (ts, m) ← base_task_step projects sections team_memberships users c
    let (rest, ms) ← base_tasks_loop projects sections team_memberships users cs
    pure (ts :: rest, m :: ms)

/-- Child creation instant of `tasks.py:315-321`: parent plus 1-72 hours and
0-59 minutes, clamped below `NOW` when it overshoots. -/
def subtask_child_created (parent_created : DT) : GenM DT := do
  let hoursD ← pyRandint 1 72
  let minsD ← pyRandint 0 59
  let child_created0 := parent_created + (hoursD : ℚ) * 3600 + (minsD : ℚ) * 60
  if NOW < child_created0 then do
    let h ← pyRandint 1 24
    pure (NOW - (h : ℚ) * 3600)
  else pure child_created0

/-- Subtask description gate of `tasks.py:329-332`. -/
def subtask_description (subtask_name archetype : String) : GenM String := do
  let simpler ← probability_check (6/10)
  if simpler then pure ""
  else generate_task_description subtask_name archetype "short"

/-- Subtask due date of `tasks.py:335-343`: 0-3 days before the parent's
(always-parseable) due date, else `None`. -/
def subtask_due (parent_due : Option Int) : GenM (Option DT) := do
  match parent_due with
  | some pd => do
    let back ← pyRandint 0 3
    pure (some (parse_date pd - (back : ℚ) * 86400))
  | none => pure none

/-- Subtask completion flag of `tasks.py:346-349`. -/
def subtask_completed (parent_completed : Nat) : GenM Bool :=
  if parent_completed ≠ 0 then probability_check (9/10)
  else probability_check (3/10)

/-- Subtask assignee of `tasks.py:357-361`: `team_members and
probability_check(0.85)` short-circuits, so nothing is drawn when the
parent's team has no members. -/
def subtask_assignee (team_memberships : List TeamMembership)
    (parent : TaskRec × TaskScratch) : GenM (Option String) := do
  match members_by_team team_memberships parent.2.team_gid with
  | [] => pure parent.1.assignee_gid
  | m :: mrest => do
    let use_team ← probability_check (85/100)
    if use_team then do
      let a ← pyChoice (m :: mrest)
      pure (some a)
    else pure parent.1.assignee_gid

/-- One subtask of Phase 2 (`tasks.py:310-387`): a child of `parent`,
inheriting workspace, project and section from the parent's scratch
metadata. -/
def subtask_step (team_memberships : List TeamMembership)
    (parent : TaskRec × TaskScratch) :
    GenM (TaskRec × TaskProjectMembership) := do
  let child_created ← subtask_child_created parent.2.created_dt
  let name0 ← get_random_task_name parent.2.archetype "general"
  let subtask_name :=
    if 60 < name0.length then String.mk (name0.data.take 57) ++ "..." else name0
  let description ← subtask_description subtask_name parent.2.archetype
  let due_on ← subtask_due parent.1.due_on
  let completed_b ← subtask_completed parent.1.completed
  let completed : Nat := if completed_b then 1 else 0
  let completed_at ← completion_opt completed_b child_created
  let assignee_gid ← subtask_assignee team_memberships parent
  let gid ← generate_gid
  let sub : TaskRec :=
    { gid := gid
      workspace_gid := parent.1.workspace_gid
      assignee_gid := assignee_gid
      parent_task_gid := some parent.1.gid
      name := subtask_name
      description := description
      created_at := format_timestamp child_created
      start_on := none
      due_on := format_date due_on
      completed_at := completed_at.map format_timestamp
      completed := completed
      is_milestone := 0 }
  let tpm : TaskProjectMembership :=
    { workspace_gid := parent.1.workspace_gid
      task_gid := gid
      project_gid := parent.2.project_gid
      section_gid := parent.2.section_gid }
  pure (sub, tpm)

/-- The `for j in range(num_children)` loop of Phase 2, with the shared
`subtask_count` budget check at the top of each iteration. -/
def children_loop (team_memberships : List TeamMembership)
    (parent : TaskRec × TaskScratch) (num_subtasks : Nat) :
    Nat → Nat → GenM (List (TaskRec × TaskProjectMembership) × Nat)
  | 0, cnt => pure ([], cnt)
  | j + 1, cnt =>
    if num_subtasks ≤ cnt then pure ([], cnt)
    else do
      let stm ← subtask_step team_memberships parent
      let (rest, cnt') ← children_loop team_memberships parent num_subtasks j
        (cnt + 1)
      pure (stm :: rest, cnt')

/-- The `for parent in random.sample(...)` loop of Phase 2. -/
def parents_loop (team_memberships : List TeamMembership) (num_subtasks : Nat) :
    List (TaskRec × TaskScratch) → Nat →
    GenM (List (TaskRec × TaskProjectMembership) × Nat)
  | [], cnt => pure ([], cnt)
  | p :: ps, cnt =>
    if num_subtasks ≤ cnt then pure ([], cnt)
    else do
      let nc ← pyRandint 1 (min 4 ((num_subtasks : Int) - (cnt : Int)))
      let (subs, cnt') ← children_loop team_memberships p num_subtasks nc.toNat
        cnt
      let (rest, cnt'') ← parents_loop team_memberships num_subtasks ps cnt'
      pure (subs ++ rest, cnt'')

/-- Phase 2 of `generate_tasks` (`tasks.py:294-387`): milestone parents are
excluded, `subtasks_per_parent` divides by
`min(len(eligible_parents), num_subtasks // 2)` (a `ZeroDivisionError` when
`num_subtasks == 1`; the quotient itself is never used), and the sampled
parents each receive 1-4 children up to the shared budget. -/
def phase2 (team_memberships : List TeamMembership) (num_subtasks : Nat)
    (base : List (TaskRec × TaskScratch)) :
    GenM (List (TaskRec × TaskProjectMembership)) := do
  let eligible := base.filter (fun p => decide (p.1.is_milestone = 0))
  match eligible with
  | [] => pure []
  | e :: es =>
    if num_subtasks = 0 then pure []
    else
      if min (e :: es).length (num_subtasks / 2) = 0 then
        GenM.throw .zeroDivision
      else do
        let chosen ← pySample (e :: es) (min (e :: es).length num_subtasks)
        let (subs, _) ← parents_loop team_memberships num_subtasks chosen 0
        pure subs

/-- `generate_tasks(workspaces, projects, sections, team_memberships, users)`
from `generators/tasks.py`, with `VOLUMES["tasks"]` and
`VOLUMES["subtask_ratio"]` injected (the `workspaces` argument is unused in
the source body as well). -/
def generate_tasks (num_tasks : Nat) (subtask_ratio : ℚ)
    (projects : List ProjectRec) (sections : List SectionRec)
    (team_memberships : List TeamMembership) (users : List User) :
    GenM (List TaskRec × List TaskProjectMembership) := do
  let num_base_tasks : Nat := (pyInt ((num_tasks : ℚ) * (1 - subtask_ratio))).toNat
  let num_subtasks : Nat := num_tasks - num_base_tasks
  let base_creation_times ← generate_creation_wave num_base_tasks
    (HISTORY_START + 14 * 86400) (HISTORY_END - 86400) "exponential"
  let (base, baseMems) ← base_tasks_loop projects sections team_memberships users
    base_creation_times
  let subPairs ← phase2 team_memberships num_subtasks base
  pure (base.map Prod.fst ++ subPairs.map Prod.fst,
    baseMems ++ subPairs.map Prod.snd)

theorem GenM.bind_ok {α β : Type} {m : GenM α} {k : α → GenM β} {o : Oracle}
    {n : Nat} {r : β} {n' : Nat}
    (h : (m >>= k) o n = .ok (r, n')) :
    ∃ p : α × Nat, m o n = .ok p ∧ k p.1 o p.2 = .ok (r, n') := by
  rw [GenM.bind_def] at h
  cases hm : m o n with
  | error e =>
    rw [hm] at h
    exact absurd h (by simp)
  | ok p =>
    rw [hm] at h
    exact ⟨p, rfl, h⟩

/-- The structural facts Phase 2 guarantees for one subtask/membership pair
relative to its parent pair. -/
def SubtaskOf (parent : TaskRec × TaskScratch)
    (r : TaskRec × TaskProjectMembership) : Prop :=
  r.1.parent_task_gid = some parent.1.gid ∧ r.1.start_on = none ∧
  r.1.is_milestone = 0 ∧ r.2.task_gid = r.1.gid ∧
  r.2.project_gid = parent.2.project_gid ∧
  r.2.section_gid = parent.2.section_gid ∧
  r.2.workspace_gid = parent.1.workspace_gid ∧
  r.1.workspace_gid = parent.1.workspace_gid

theorem subtask_step_spec (tms : List TeamMembership)
    (parent : TaskRec × TaskScratch) (o : Oracle) (n : Nat)
    (r : TaskRec × TaskProjectMembership) (n' : Nat)
    (h : subtask_step tms parent o n = .ok (r, n')) : SubtaskOf parent r := by
  simp only [subtask_step] at h
  obtain ⟨⟨child_created, n1⟩, -, h⟩ := GenM.bind_ok h
  obtain ⟨⟨name0, n2⟩, -, h⟩ := GenM.bind_ok h
  obtain ⟨⟨description, n3⟩, -, h⟩ := GenM.bind_ok h
  obtain ⟨⟨due_on, n4⟩, -, h⟩ := GenM.bind_ok h
  obtain ⟨⟨completed_b, n5⟩, -, h⟩ := GenM.bind_ok h
  obtain ⟨⟨completed_at, n6⟩, -, h⟩ := GenM.bind_ok h
  obtain ⟨⟨assignee, n7⟩, -, h⟩ := GenM.bind_ok h
  obtain ⟨⟨gid, n8⟩, -, h⟩ := GenM.bind_ok h
  simp only [GenM.pure_def, Except.ok.injEq, Prod.mk.injEq] at h
  rw [← h.1]
  exact ⟨rfl, rfl, rfl, rfl, rfl, rfl, rfl, rfl⟩

theorem children_loop_spec (tms : List TeamMembership)
    (parent : TaskRec × TaskScratch) (num_subtasks : Nat) :
    ∀ (j cnt : Nat) (o : Oracle) (n : Nat)
      (lst : List (TaskRec × TaskProjectMembership)) (cnt' n' : Nat),
      children_loop tms parent num_subtasks j cnt o n = .ok ((lst, cnt'), n') →
      ∀ r ∈ lst, SubtaskOf parent r := by
  intro j
  induction j with
  | zero =>
    intro cnt o n lst cnt' n' h r hr
    simp only [children_loop, GenM.pure_def, Except.ok.injEq, Prod.mk.injEq] at h
    rw [← h.1.1] at hr
    simp at hr
  | succ j ih =>
    intro cnt o n lst cnt' n' h r hr
    simp only [children_loop] at h
    split at h
    · simp only [GenM.pure_def, Except.ok.injEq, Prod.mk.injEq] at h
      rw [← h.1.1] at hr
      simp at hr
    · obtain ⟨⟨stm, n1⟩, hstm, h⟩ := GenM.bind_ok h
      obtain ⟨⟨pr, n2⟩, hrec, h⟩ := GenM.bind_ok h
      obtain ⟨rest, cnt2⟩ := pr
      simp only [GenM.pure_def, Except.ok.injEq, Prod.mk.injEq] at h
      rw [← h.1.1] at hr
      rcases List.mem_cons.mp hr with rfl | hr'
      · exact subtask_step_spec tms parent o n r n1 hstm
      · exact ih (cnt + 1) o n1 rest cnt2 n2 hrec r hr'

theorem parents_loop_spec (tms : List TeamMembership) (num_subtasks : Nat) :
    ∀ (ps : List (TaskRec × TaskScratch)) (cnt : Nat) (o : Oracle) (n : Nat)
      (lst : List (TaskRec × TaskProjectMembership)) (cnt' n' : Nat),
      parents_loop tms num_subtasks ps cnt o n = .ok ((lst, cnt'), n') →
      ∀ r ∈ lst, ∃ p ∈ ps, SubtaskOf p r := by
  intro ps
  induction ps with
  | nil =>
    intro cnt o n lst cnt' n' h r hr
    simp only [parents_loop, GenM.pure_def, Except.ok.injEq, Prod.mk.injEq] at h
    rw [← h.1.1] at hr
    simp at hr
  | cons p ps ih =>
    intro cnt o n lst cnt' n' h r hr
    simp only [parents_loop] at h
    split at h
    · simp only [GenM.pure_def, Except.ok.injEq, Prod.mk.injEq] at h
      rw [← h.1.1] at hr
      simp at hr
    · obtain ⟨⟨nc, n1⟩, -, h⟩ := GenM.bind_ok h
      obtain ⟨⟨prc, n2⟩, hcl, h⟩ := GenM.bind_ok h
      obtain ⟨subs, cnt1⟩ := prc
      obtain ⟨⟨prr, n3⟩, hrec, h⟩ := GenM.bind_ok h
      obtain ⟨rest, cnt2⟩ := prr
      simp only [GenM.pure_def, Except.ok.injEq, Prod.mk.injEq] at h
      rw [← h.1.1] at hr
      rcases List.mem_append.mp hr with hr' | hr'
      · exact ⟨p, List.mem_cons_self _ _,
          children_loop_spec tms p num_subtasks nc.toNat cnt o n1 subs cnt1 n2
            hcl r hr'⟩
      · obtain ⟨q, hq, hs⟩ := ih cnt1 o n2 rest cnt2 n3 hrec r hr'
        exact ⟨q, List.mem_cons_of_mem _ hq, hs⟩

theorem phase2_spec (tms : List TeamMembership) (num_subtasks : Nat)
    (base : List (TaskRec × TaskScratch)) (o : Oracle) (n : Nat)
    (subs : List (TaskRec × TaskProjectMembership)) (n' : Nat)
    (h : phase2 tms num_subtasks base o n = .ok (subs, n')) :
    ∀ r ∈ subs, ∃ p ∈ base, p.1.is_milestone = 0 ∧ SubtaskOf p r := by
  simp only [phase2] at h
  cases helig : base.filter (fun p => decide (p.1.is_milestone = 0)) with
  | nil =>
    simp only [helig, GenM.pure_def, Except.ok.injEq, Prod.mk.injEq] at h
    rw [← h.1]
    simp
  | cons e es =>
    simp only [helig] at h
    intro r hr
    split at h
    · simp only [GenM.pure_def, Except.ok.injEq, Prod.mk.injEq] at h
      rw [← h.1] at hr
      simp at hr
    · split at h
      · simp only [GenM.throw] at h
        exact absurd h (by simp)
      · obtain ⟨⟨chosen, n1⟩, hsamp, h⟩ := GenM.bind_ok h
        obtain ⟨⟨prr, n2⟩, hpl, h⟩ := GenM.bind_ok h
        obtain ⟨subs0, cnt⟩ := prr
        simp only [GenM.pure_def, Except.ok.injEq, Prod.mk.injEq] at h
        rw [← h.1] at hr
        obtain ⟨p, hp, hs⟩ :=
          parents_loop_spec tms num_subtasks chosen 0 o n1 subs0 cnt n2 hpl r hr
        have hpe : p ∈ e :: es := pySample_sub hsamp p hp
        rw [← helig] at hpe
        have := List.mem_filter.mp hpe
        exact ⟨p, this.1, by simpa using this.2, hs⟩

theorem base_task_step_spec (projects : List ProjectRec)
    (sections : List SectionRec) (tms : List TeamMembership)
    (users : List User) (c : DT) (o : Oracle) (n : Nat)
    (r : (TaskRec × TaskScratch) × TaskProjectMembership) (n' : Nat)
    (h : base_task_step projects sections tms users c o n = .ok (r, n')) :
    r.1.1.parent_task_gid = none ∧ r.2.task_gid = r.1.1.gid ∧
    r.2.project_gid = r.1.2.project_gid ∧
    r.2.section_gid = r.1.2.section_gid ∧
    r.2.workspace_gid = r.1.1.workspace_gid := by
  simp only [base_task_step] at h
  obtain ⟨⟨project, n1⟩, -, h⟩ := GenM.bind_ok h
  obtain ⟨⟨created_at, n2⟩, -, h⟩ := GenM.bind_ok h
  obtain ⟨⟨assignee, n3⟩, -, h⟩ := GenM.bind_ok h
  obtain ⟨⟨task_name, n4⟩, -, h⟩ := GenM.bind_ok h
  obtain ⟨⟨desc_type, n5⟩, -, h⟩ := GenM.bind_ok h
  obtain ⟨⟨description, n6⟩, -, h⟩ := GenM.bind_ok h
  obtain ⟨⟨due_on, n7⟩, -, h⟩ := GenM.bind_ok h
  obtain ⟨⟨start_on0, n8⟩, -, h⟩ := GenM.bind_ok h
  obtain ⟨⟨milestone_b, n9⟩, -, h⟩ := GenM.bind_ok h
  obtain ⟨⟨completion_probability, n10⟩, -, h⟩ := GenM.bind_ok h
  obtain ⟨⟨completed_b, n11⟩, -, h⟩ := GenM.bind_ok h
  obtain ⟨⟨completed_at, n12⟩, -, h⟩ := GenM.bind_ok h
  obtain ⟨⟨section_gid, n13⟩, -, h⟩ := GenM.bind_ok h
  obtain ⟨⟨gid, n14⟩, -, h⟩ := GenM.bind_ok h
  simp only [GenM.pure_def, Except.ok.injEq, Prod.mk.injEq] at h
  rw [← h.1]
  exact ⟨rfl, rfl, rfl, rfl, rfl⟩

theorem base_tasks_loop_spec (projects : List ProjectRec)
    (sections : List SectionRec) (tms : List TeamMembership)
    (users : List User) :
    ∀ (cs : List DT) (o : Oracle) (n : Nat)
      (base : List (TaskRec × TaskScratch))
      (mems : List TaskProjectMembership) (n' : Nat),
      base_tasks_loop projects sections tms users cs o n = .ok ((base, mems), n') →
      ∀ pr ∈ base, pr.1.parent_task_gid = none ∧
        ∃ m ∈ mems, m.task_gid = pr.1.gid ∧ m.project_gid = pr.2.project_gid ∧
          m.section_gid = pr.2.section_gid ∧
          m.workspace_gid = pr.1.workspace_gid := by
  intro cs
  induction cs with
  | nil =>
    intro o n base mems n' h pr hpr
    simp only [base_tasks_loop, GenM.pure_def, Except.ok.injEq, Prod.mk.injEq] at h
    rw [← h.1.1] at hpr
    simp at hpr
  | cons c cs ih =>
    intro o n base mems n' h pr hpr
    simp only [base_tasks_loop] at h
    obtain ⟨⟨stp, n1⟩, hstep, h⟩ := GenM.bind_ok h
    obtain ⟨ts, m⟩ := stp
    obtain ⟨⟨prr, n2⟩, hrec, h⟩ := GenM.bind_ok h
    obtain ⟨rest, ms⟩ := prr
    simp only [GenM.pure_def, Except.ok.injEq, Prod.mk.injEq] at h
    obtain ⟨⟨hbase, hmems⟩, -⟩ := h
    rw [← hbase] at hpr
    rcases List.mem_cons.mp hpr with rfl | hpr'
    · have hs := base_task_step_spec projects sections tms users c o n (pr, m)
        n1 hstep
    -- the head pair's membership row is the head of the membership list
      refine ⟨hs.1, m, ?_, hs.2.1, hs.2.2.1, hs.2.2.2.1, hs.2.2.2.2⟩
      rw [← hmems]
      exact List.mem_cons_self _ _
    · obtain ⟨hnone, mrow, hmrow, hfields⟩ := ih o n1 rest ms n2 hrec pr hpr'
      refine ⟨hnone, mrow, ?_, hfields⟩
      rw [← hmems]
      exact List.mem_cons_of_mem _ hmrow

/-- C7: in any successful `generate_tasks` run, every task with a parent (a
Phase-2 subtask) has no start date and is not a milestone, and its
task-project-membership row carries exactly the project gid and section gid
of its parent's membership row — inherited, not independently drawn. -/
theorem generate_tasks_subtask_inheritance
    (num_tasks : Nat) (subtask_ratio : ℚ) (projects : List ProjectRec)
    (sections : List SectionRec) (tms : List TeamMembership)
    (users : List User) (o : Oracle) (n : Nat) (tasks : List TaskRec)
    (mems : List TaskProjectMembership) (n' : Nat)
    (h : generate_tasks num_tasks subtask_ratio projects sections tms users o n
      = .ok ((tasks, mems), n')) :
    ∀ t ∈ tasks, ∀ pg, t.parent_task_gid = some pg →
      t.start_on = none ∧ t.is_milestone = 0 ∧
      ∃ p ∈ tasks, p.gid = pg ∧ p.parent_task_gid = none ∧
      ∃ m ∈ mems, m.task_gid = t.gid ∧
      ∃ mp ∈ mems, mp.task_gid = p.gid ∧
        m.project_gid = mp.project_gid ∧ m.section_gid = mp.section_gid ∧
        m.workspace_gid = t.workspace_gid := by
  simp only [generate_tasks] at h
  obtain ⟨⟨wave, n1⟩, -, h⟩ := GenM.bind_ok h
  obtain ⟨⟨bp, n2⟩, hloop, h⟩ := GenM.bind_ok h
  obtain ⟨base, baseMems⟩ := bp
  obtain ⟨⟨subPairs, n3⟩, hphase, h⟩ := GenM.bind_ok h
  simp only [GenM.pure_def, Except.ok.injEq, Prod.mk.injEq] at h
  obtain ⟨⟨htasks, hmems⟩, -⟩ := h
  intro t ht pg hpg
  rw [← htasks] at ht
  rcases List.mem_append.mp ht with hbase | hsubm
  · obtain ⟨pr, hpr, rfl⟩ := List.mem_map.mp hbase
    have := (base_tasks_loop_spec projects sections tms users wave o n1 base
      baseMems n2 hloop pr hpr).1
    rw [this] at hpg
    exact absurd hpg (by simp)
  · obtain ⟨rm, hrm, rfl⟩ := List.mem_map.mp hsubm
    obtain ⟨p, hp, hmil, hparent, hstart, hmile, htg, hproj, hsect, hwm, hw1⟩ :=
      phase2_spec tms (num_tasks - (pyInt ((num_tasks : ℚ) * (1 - subtask_ratio))).toNat)
        base o n2 subPairs n3 hphase rm hrm
    have hpgid : pg = p.1.gid := by
      rw [hparent] at hpg
      exact (Option.some.inj hpg).symm
    obtain ⟨hpnone, mp, hmp, hmpt, hmpp, hmps, -⟩ :=
      base_tasks_loop_spec projects sections tms users wave o n1 base baseMems
        n2 hloop p hp
    refine ⟨hstart, hmile, p.1, ?_, hpgid.symm, hpnone, rm.2, ?_, htg, mp, ?_,
      ?_, ?_, ?_, ?_⟩
    · rw [← htasks]
      exact List.mem_append_left _ (List.mem_map.mpr ⟨p, hp, rfl⟩)
    · rw [← hmems]
      exact List.mem_append_right _ (List.mem_map.mpr ⟨rm, hrm, rfl⟩)
    · rw [← hmems]
      exact List.mem_append_left _ hmp
    · exact hmpt
    · rw [hproj, hmpp]
    · rw [hsect, hmps]
    · rw [hwm, hw1]

/-- Oracle for the concrete `generate_tasks` runs: every integer draw is 71,
every unit draw is 0.7, text draws are `"t"`, uuid entropy is the counter. -/
def oracleC2 : Oracle where
  nat := fun _ => 71
  q := fun _ => 7/10
  str := fun _ => "t"
  uuid := fun i => i

/-- A project created 30 hours before `NOW` (wave instants predate it, so
every base task takes the `proj_created + randint(1,48) hours` repair). -/
def projC2 : ProjectRec :=
  { gid := "p", workspace_gid := "w", team_gid := none, owner_gid := none,
    name := "P", archetype := none, layout := "board",
    current_status := "on_track", due_date := none, archived := 0,
    created_at := -28800 }

/-- C2: counterexample.  In this successful `generate_tasks` run the parent
task is created at `NOW - 6 h` (project-creation repair), the subtask's
`parent + 70 h` offset overshoots `NOW`, and the overshoot clamp rewinds it
to `NOW - 24 h` without comparing against the parent, so a task with
`parent_task_gid` set is created 18 hours before its parent — violating the
generator header's rule 1, `parent_task.created_at <= child_task.created_at`. -/
theorem generate_tasks_child_before_parent :
    (match generate_tasks 4 (1/2) [projC2] [] [] [] oracleC2 0 with
      | .ok ((ts, _), _) =>
        ts.any (fun t => ts.any (fun p =>
          decide (t.parent_task_gid = some p.gid) &&
          decide (t.created_at < p.created_at)))
      | .error _ => false) = true := by
  set_option maxRecDepth 2000 in with_unfolding_all rfl

/-- Oracle for the C1 full-pipeline run: every integer draw is 38, every
unit draw is 0.7, text draws are `"t"`, uuid entropy is the counter. -/
def oracleC1b : Oracle where
  nat := fun _ => 38
  q := fun _ => 7/10
  str := fun _ => "t"
  uuid := fun i => i

/-- A `sprint` project created 30 hours before `NOW` (the high completion
range makes the drawn tasks complete). -/
def projC1b : ProjectRec :=
  { gid := "p", workspace_gid := "w", team_gid := none, owner_gid := none,
    name := "P", archetype := some "sprint", layout := "board",
    current_status := "on_track", due_date := none, archived := 0,
    created_at := -28800 }

/-- C1: counterexample.  This successful `generate_tasks` run emits a subtask
created at `NOW - 15 h` whose `completed_at` is `NOW + 2 h`: inside
`calculate_completion_timestamp` the drawn completion lands past `NOW`, the
first repair (`NOW - randint(1,48) h`) rewinds to before `created_at`, and
the second repair adds `randint(2,24)` hours to `created_at` without
re-checking `NOW`.  `created_at <= completed_at` holds, `completed_at <= NOW`
does not. -/
theorem generate_tasks_completed_after_now :
    (match generate_tasks 4 (1/2) [projC1b] [] [] [] oracleC1b 0 with
      | .ok ((ts, _), _) =>
        ts.any (fun t => match t.completed_at with
          | some c =>
            decide (t.created_at ≤ c) &&
            decide (t.created_at ≤ format_timestamp NOW) &&
            decide (format_timestamp NOW < c)
          | none => false)
      | .error _ => false) = true := by
  set_option maxRecDepth 2000 in with_unfolding_all rfl

def baseC7a : TaskRec :=
  { gid := "0000000000000018", workspace_gid := "w", assignee_gid := none,
    parent_task_gid := none, name := "t", description := "t",
    created_at := 57600, start_on := none, due_on := some 42,
    completed_at := none, completed := 0, is_milestone := 0 }

def baseC7b : TaskRec :=
  { gid := "0000000000000031", workspace_gid := "w", assignee_gid := none,
    parent_task_gid := none, name := "t", description := "t",
    created_at := 57600, start_on := none, due_on := some 42,
    completed_at := none, completed := 0, is_milestone := 0 }

def subC7a : TaskRec :=
  { gid := "0000000000000043", workspace_gid := "w", assignee_gid := none,
    parent_task_gid := some "0000000000000031", name := "t",
    description := "t", created_at := -7200, start_on := none,
    due_on := some 39, completed_at := none, completed := 0,
    is_milestone := 0 }

def subC7b : TaskRec :=
  { gid := "0000000000000052", workspace_gid := "w", assignee_gid := none,
    parent_task_gid := some "0000000000000031", name := "t",
    description := "t", created_at := -7200, start_on := none,
    due_on := some 39, completed_at := none, completed := 0,
    is_milestone := 0 }

def tasksC7 : List TaskRec := [baseC7a, baseC7b, subC7a, subC7b]

def memsC7 : List TaskProjectMembership :=
  [{ workspace_gid := "w", task_gid := "0000000000000018", project_gid := "p",
     section_gid := none },
   { workspace_gid := "w", task_gid := "0000000000000031", project_gid := "p",
     section_gid := none },
   { workspace_gid := "w", task_gid := "0000000000000043", project_gid := "p",
     section_gid := none },
   { workspace_gid := "w", task_gid := "0000000000000052", project_gid := "p",
     section_gid := none }]

/-- C7 witness: the inheritance theorem applied to a concrete four-task run
(two base tasks, two subtasks of the second base task). -/
theorem generate_tasks_subtask_inheritance_witness :
    subC7a ∈ tasksC7 ∧ subC7a.parent_task_gid = some "0000000000000031" ∧
    (subC7a.start_on = none ∧ subC7a.is_milestone = 0 ∧
      ∃ p ∈ tasksC7, p.gid = "0000000000000031" ∧ p.parent_task_gid = none ∧
      ∃ m ∈ memsC7, m.task_gid = subC7a.gid ∧
      ∃ mp ∈ memsC7, mp.task_gid = p.gid ∧
        m.project_gid = mp.project_gid ∧ m.section_gid = mp.section_gid ∧
        m.workspace_gid = subC7a.workspace_gid) := by
  have hrun : generate_tasks 4 (1/2) [projC2] [] [] [] oracleC2 0 =
      .ok ((tasksC7, memsC7), 53) := by
    set_option maxRecDepth 2000 in with_unfolding_all rfl
  refine ⟨by decide, rfl, ?_⟩
  exact generate_tasks_subtask_inheritance 4 (1/2) [projC2] [] [] [] oracleC2 0
    tasksC7 memsC7 53 hrun subC7a (by decide) "0000000000000031" rfl

/-- C6 witness: the uniqueness theorem applied to a concrete one-user run over
one workspace with an `'@'`-free domain. -/
theorem generate_users_emails_unique_witness :
    generate_users 1 [wsC6] oracleZero 0 = .ok (([userC6], [wmC6]), 8) ∧
      ([userC6].map User.email).Nodup := by
  have hrun : generate_users 1 [wsC6] oracleZero 0 =
      .ok (([userC6], [wmC6]), 8) := by
    set_option maxRecDepth 1500 in with_unfolding_all rfl
  exact ⟨hrun, generate_users_emails_unique 1 [wsC6] oracleZero 0
    (by decide) _ _ _ hrun⟩

end Asana
